import Mathlib

/-!
Verification of the AI orchestration subsystem of the portfolio application
(`internal/services/ai`: `service.go`, `cache.go` + the model-router/config
file concatenated with it, `audit.go`, `tax.go`, with the portfolio and
holding model from `internal/models`).

Shallow embedding conventions:
* Go `time.Time` values are modelled as `Nat` nanosecond timestamps; a
  duration is a `Nat` number of nanoseconds.
* `decimal.Decimal` (shopspring, arbitrary-precision decimals) and `float64`
  are both modelled as exact rationals (`Rat`).  Division by zero is `0` in
  `Rat` where Go floats would give `Inf`/`NaN`; the spots where this can make
  a difference are noted at the definitions.
* Go maps are modelled as association lists (for the query cache, where the
  entry count matters) or as total functions with default `0` (for the
  per-user token table).  Go map iteration order is unspecified; the list
  models fix one order, and every theorem proved below is insensitive to it.
* `sha256` cache keys: the Go cache keys entries by
  `hex(sha256(normalize(query) + "|" + portfolioID))`.  The normalized query
  never contains `"|"` (normalization keeps only `[a-z0-9 $%]`), so modulo
  hash collisions the key is exactly the pair
  `(normalize(query), portfolioID)`, which is what the model uses.
* Nondeterministic identifiers (`uuid.New()`) and wall-clock reads are
  threaded as explicit parameters.
-/

/-! ### Core data types (`service.go`, model/config file) -/

/-- Go `Model` (a string naming the Claude model tier). -/
abbrev Model := String

def ModelHaiku : Model := "claude-3-haiku-20240307"

def ModelSonnet : Model := "claude-sonnet-4-20250514"

def ModelOpus : Model := "claude-opus-4-20250514"

/-- Go `QueryIntent` (a string classifying the type of user query). -/
abbrev QueryIntent := String

def IntentSimple : QueryIntent := "simple"

def IntentAnalytical : QueryIntent := "analytical"

def IntentTax : QueryIntent := "tax"

def IntentResearch : QueryIntent := "research"

def IntentComparison : QueryIntent := "comparison"

def IntentProjection : QueryIntent := "projection"

def IntentRisk : QueryIntent := "risk"

def IntentCompliance : QueryIntent := "compliance"

def IntentUnsupported : QueryIntent := "unsupported"

/-- Go `TokenUsage`. -/
structure TokenUsage where
  Input : Nat
  Output : Nat
  Total : Nat
deriving DecidableEq, Repr

/-- Go `strings.Contains(text, pat)`, modelled as list-infix on the
character lists. -/
def strContains (text pat : String) : Bool :=
  decide (pat.toList <:+: text.toList)

/-- Go `strings.ToLower` (kernel-evaluable character-list version of
`String.toLower`; `Char.toLower` lower-cases ASCII letters, which covers
every string this subsystem matches against). -/
def strToLower (s : String) : String :=
  String.mk (s.toList.map Char.toLower)

/-- Helper for `strFields`: split a character list into maximal runs of
non-whitespace characters (`acc` is the current run, reversed). -/
def fieldsAux : List Char → List Char → List String
  | [], acc => if acc.length = 0 then [] else [String.mk acc.reverse]
  | c :: cs, acc =>
    if c.isWhitespace then
      if acc.length = 0 then fieldsAux cs []
      else String.mk acc.reverse :: fieldsAux cs []
    else fieldsAux cs (c :: acc)

/-- Go `strings.Fields`: the whitespace-separated words of a string. -/
def strFields (s : String) : List String :=
  fieldsAux s.toList []

/-- Go `Source` (a data source citation).  The Go field `Type` is renamed
`SrcType` because `Type` is a Lean keyword. -/
structure Source where
  SrcType : String
  Reference : String
  Description : String
  URL : String
deriving DecidableEq, Repr

/-- Go `Response` (an AI response).  `ProcessingMs` and `Timestamp` are kept
as naturals; timestamps are nanoseconds since the model epoch. -/
structure Response where
  ID : String
  QueryID : String
  Text : String
  Sources : List Source
  Disclaimers : List String
  Model : Model
  Intent : QueryIntent
  TokensUsed : TokenUsage
  Cached : Bool
  ProcessingMs : Nat
  Timestamp : Nat
deriving DecidableEq, Repr

/-- Go `Query` (a user query with context).  The `Context` map is modelled as
an association list in a fixed order. -/
structure Query where
  ID : String
  UserID : String
  Text : String
  PortfolioID : String
  Context : List (String × String)
  Timestamp : Nat
deriving DecidableEq, Repr

/-! ### Intent classifier and model router -/

/-- Go helper `containsAny`: does `text` contain any of `patterns` as a
substring?  (`strings.Contains` on byte strings, modelled on the character
lists.) -/
def containsAny (text : String) (patterns : List String) : Bool :=
  patterns.any fun p => strContains text p

/-- The blocklist literals of `isBlockedQuery` (inline in the source). -/
def blockedPatterns : List String :=
  [ "should i buy", "should i sell", "buy or sell",
    "is it a good time to", "when should i",
    "recommend me", "what should i invest in",
    "pick stocks for me", "best stocks to buy",
    "guaranteed", "risk-free return", "can\x27t lose",
    "will definitely", "100% certain",
    "when will the market", "will the stock go up",
    "price target", "where will",
    "insider", "non-public", "confidential information" ]

/-- Go `(*ModelRouter).isBlockedQuery`: checks if the (already lower-cased)
query requests blocked content. -/
def isBlockedQuery (query : String) : Bool :=
  blockedPatterns.any fun pattern => strContains query pattern

/-- The tax keyword group of `ClassifyIntent` (inline in the source). -/
def taxKeywords : List String :=
  [ "tax", "taxes", "tax-loss", "harvest", "wash sale",
    "capital gain", "capital loss", "1099", "cost basis",
    "short-term", "long-term gain" ]

/-- The risk keyword group of `ClassifyIntent` (inline in the source). -/
def riskKeywords : List String :=
  [ "risk", "volatility", "drawdown", "beta", "sharpe",
    "sortino", "var", "value at risk", "exposure",
    "concentrated", "diversif" ]

/-- The projection keyword group of `ClassifyIntent` (inline in the source). -/
def projectionKeywords : List String :=
  [ "project", "forecast", "predict", "future", "scenario",
    "what if", "monte carlo", "retirement", "goal",
    "will i have", "can i afford" ]

/-- The research keyword group of `ClassifyIntent` (inline in the source). -/
def researchKeywords : List String :=
  [ "research", "analyze", "deep dive", "explain why",
    "compare to market", "versus benchmark", "historical",
    "trend", "pattern" ]

/-- The comparison keyword group of `ClassifyIntent` (inline in the source). -/
def comparisonKeywords : List String :=
  [ "compare", "versus", "vs", "better than", "difference between",
    "which is", "should i choose" ]

/-- The analytical keyword group of `ClassifyIntent` (inline in the source). -/
def analyticalKeywords : List String :=
  [ "portfolio", "allocation", "holdings", "position",
    "performance", "return", "my", "how am i",
    "rebalance", "weight" ]

/-- The simple keyword group of `ClassifyIntent` (inline in the source). -/
def simpleKeywords : List String :=
  [ "what is", "what are", "define", "explain", "how does",
    "tell me about", "meaning of" ]

/-- Go `(*ModelRouter).ClassifyIntent`: determines the type of query by
ordered rule evaluation over the lower-cased text. -/
def ClassifyIntent (query : String) : QueryIntent :=
  let query := strToLower query
  if isBlockedQuery query then IntentUnsupported
  else if containsAny query taxKeywords then IntentTax
  else if containsAny query riskKeywords then IntentRisk
  else if containsAny query projectionKeywords then IntentProjection
  else if containsAny query researchKeywords then IntentResearch
  else if containsAny query comparisonKeywords then IntentComparison
  else if containsAny query analyticalKeywords then IntentAnalytical
  else if containsAny query simpleKeywords then IntentSimple
  else IntentAnalytical

/-- Go `IntentModelRouting` map (intent to model tier). -/
def IntentModelRouting : List (QueryIntent × Model) :=
  [ (IntentSimple, ModelHaiku),
    (IntentAnalytical, ModelSonnet),
    (IntentTax, ModelSonnet),
    (IntentResearch, ModelSonnet),
    (IntentComparison, ModelHaiku),
    (IntentProjection, ModelSonnet),
    (IntentRisk, ModelSonnet),
    (IntentCompliance, ModelSonnet),
    (IntentUnsupported, ModelHaiku) ]

/-- Association-list lookup (models a Go map read). -/
def lookupAssoc {α β : Type} [DecidableEq α] : List (α × β) → α → Option β
  | [], _ => none
  | kv :: rest, key => if kv.1 = key then some kv.2 else lookupAssoc rest key

/-- Go `Config` (AI service configuration). -/
structure Config where
  APIKey : String
  BaseURL : String
  MaxRetries : Nat
  Timeout : Nat
  DefaultModel : Model
  ComplexModel : Model
  SimpleModel : Model
  MaxTokens : Nat
  Temperature : Rat
  EnableStreaming : Bool
  DailyTokenBudget : Nat
  QueryTokenLimit : Nat
  EnableCostTracking : Bool
  CacheEnabled : Bool
  CacheTTL : Nat
  SemanticCacheThresh : Rat
  EnableAuditLog : Bool
  EnableDisclaimers : Bool
  BlockedTopics : List String
  RequireSourceCites : Bool
deriving Repr

/-- Nanoseconds in one second (`time.Second`). -/
def nsPerSecond : Nat := 1000000000

/-- Nanoseconds in one hour (`time.Hour`). -/
def nsPerHour : Nat := 3600 * nsPerSecond

/-- Nanoseconds in 24 hours. -/
def nsPerDay : Nat := 24 * nsPerHour

/-- Go `DefaultConfig`: production-ready defaults. -/
def DefaultConfig : Config where
  APIKey := ""
  BaseURL := "https://api.anthropic.com/v1"
  MaxRetries := 3
  Timeout := 30 * nsPerSecond
  DefaultModel := ModelSonnet
  ComplexModel := ModelSonnet
  SimpleModel := ModelHaiku
  MaxTokens := 4096
  Temperature := 2/10
  EnableStreaming := true
  DailyTokenBudget := 1000000
  QueryTokenLimit := 8192
  EnableCostTracking := true
  CacheEnabled := true
  CacheTTL := nsPerHour
  SemanticCacheThresh := 92/100
  EnableAuditLog := true
  EnableDisclaimers := true
  BlockedTopics :=
    [ "specific stock recommendations", "guaranteed returns",
      "market timing predictions", "insider information" ]
  RequireSourceCites := true

/-- Go `(*ModelRouter).SelectModel`: chooses the model for a query.  `len`
is byte length in Go, modelled by `String.utf8ByteSize`. -/
def SelectModel (cfg : Config) (intent : QueryIntent) (query : String) : Model :=
  let isComplex := Nat.blt 500 query.utf8ByteSize || Nat.blt 1 (query.toList.count (Char.ofNat 63))
  let model :=
    match lookupAssoc IntentModelRouting intent with
    | some m => m
    | none => cfg.DefaultModel
  if isComplex && model = ModelHaiku then cfg.ComplexModel else model

/-! ### Semantic query cache (`cache.go`) -/

/-- A cache key: the Go code keys the map by
`hex(sha256(normalizedQuery + "|" + portfolioID))`; since the normalized
query cannot contain the separator, the key is modelled (injectively, modulo
hash collisions) by the pair itself. -/
abbrev CacheKey := String × String

/-- Go `CacheEntry` (a cached response). -/
structure CacheEntry where
  Query : String
  QueryHash : CacheKey
  PortfolioID : String
  Response : Response
  Keywords : List String
  CreatedAt : Nat
  HitCount : Nat
deriving DecidableEq, Repr

/-- Go `QueryCache`: `cache` models the Go hash map as an association list
(`sync.RWMutex` elided: operations are modelled as atomic state
transitions). -/
structure QueryCache where
  cache : List (CacheKey × CacheEntry)
  ttl : Nat
  threshold : Rat
  maxEntries : Nat
deriving Repr

/-- Go `NewQueryCache` (the background cleanup goroutine is modelled by the
explicit `cleanup` transition below). -/
def NewQueryCache (ttl : Nat) (threshold : Rat) : QueryCache where
  cache := []
  ttl := if ttl = 0 then nsPerHour else ttl
  threshold := if threshold = 0 then 92/100 else threshold
  maxEntries := 10000

/-- Go `normalizeQuery`: lower-case, collapse whitespace, keep only
lower-case letters, digits, space, `$`, `%`. -/
def normalizeQuery (query : String) : String :=
  let q := strToLower query
  let q := " ".intercalate (strFields q)
  String.mk (q.toList.filter fun r =>
    decide ((Char.ofNat 97 ≤ r ∧ r ≤ Char.ofNat 122) ∨
      (Char.ofNat 48 ≤ r ∧ r ≤ Char.ofNat 57) ∨
      r = Char.ofNat 32 ∨ r = Char.ofNat 36 ∨ r = Char.ofNat 37))

/-- Go `hashQuery`, as the injective pair abstraction of the sha256 key. -/
def hashQuery (query portfolioID : String) : CacheKey :=
  (normalizeQuery query, portfolioID)

/-- The stop-word table of `extractKeywords` (inline in the source). -/
def stopWords : List String :=
  [ "a", "an", "the", "is", "are", "was", "were", "be", "been", "being",
    "have", "has", "had", "do", "does", "did", "will", "would", "could",
    "should", "may", "might", "must", "shall", "i", "me", "my", "we", "our",
    "you", "your", "it", "its", "this", "that", "these", "those",
    "what", "which", "who", "whom", "how", "when", "where", "why",
    "and", "or", "but", "if", "then", "so", "as", "of", "at", "by",
    "for", "with", "about", "to", "from", "in", "on", "can", "tell", "show" ]

/-- The cutset of `strings.Trim(word, ".,!?;:'\"")`. -/
def trimCutset : List Char :=
  [Char.ofNat 46, Char.ofNat 44, Char.ofNat 33, Char.ofNat 63,
   Char.ofNat 59, Char.ofNat 58, Char.ofNat 39, Char.ofNat 34]

/-- Go `strings.Trim(w, cutset)` (drop cutset characters from both ends). -/
def trimWord (w : String) : String :=
  String.mk ((((w.toList.dropWhile (trimCutset.contains ·)).reverse.dropWhile
    (trimCutset.contains ·)).reverse))

/-- Go `extractKeywords`: lower-case, split on whitespace, trim punctuation,
drop words shorter than 2 characters and stop words. -/
def extractKeywords (query : String) : List String :=
  let words := strFields (strToLower query)
  words.filterMap fun word =>
    let word := trimWord word
    if word.length < 2 then none
    else if stopWords.contains word then none
    else some word

/-- Go `calculateSimilarity`: weighted Jaccard/length-ratio score.  The Go
`float64` arithmetic is modelled exactly over `Rat`; Go's `x/0 = Inf` is `0`
here, which can only matter for entries whose stored normalized query is
empty while their keyword set is not (impossible for ASCII queries). -/
def calculateSimilarity (normalizedQuery : String) (queryKeywords : List String)
    (entry : CacheEntry) : Rat :=
  if queryKeywords.length = 0 ∨ entry.Keywords.length = 0 then 0
  else
    let querySet := queryKeywords.dedup
    let entrySet := entry.Keywords.dedup
    let intersection := (querySet.filter (fun kw => entrySet.contains kw)).length
    let union := querySet.length + (entrySet.filter (fun kw => ¬ querySet.contains kw)).length
    if union = 0 then 0
    else
      let jaccardSim : Rat := (intersection : Rat) / (union : Rat)
      let lenRatio : Rat := (normalizedQuery.length : Rat) / (entry.Query.length : Rat)
      let lenRatio := if 1 < lenRatio then 1 / lenRatio else lenRatio
      jaccardSim * (7/10) + lenRatio * (3/10)

/-- Go `cloneResponse`: field-by-field copy with fresh `Sources` and
`Disclaimers` slices (contents preserved, aliasing broken). -/
def cloneResponse (r : Response) : Response where
  ID := r.ID
  QueryID := r.QueryID
  Text := r.Text
  Sources := r.Sources
  Disclaimers := r.Disclaimers
  Model := r.Model
  Intent := r.Intent
  TokensUsed := r.TokensUsed
  Cached := r.Cached
  ProcessingMs := r.ProcessingMs
  Timestamp := r.Timestamp

/-- Increment the hit counter of the entry stored at `k` (the Go
`entry.HitCount++` on a cache hit). -/
def bumpHit (l : List (CacheKey × CacheEntry)) (k : CacheKey) :
    List (CacheKey × CacheEntry) :=
  l.map fun kv => if kv.1 = k then (kv.1, { kv.2 with HitCount := kv.2.HitCount + 1 }) else kv

/-- The similarity scan of `Get` (the `for _, entry := range c.cache` loop):
first non-expired same-portfolio entry scoring at least the threshold.  The
Go map iteration order is unspecified; the model scans in list order, and
the theorems below do not depend on the order. -/
def findSimilar (now ttl : Nat) (threshold : Rat) (portfolioID : String)
    (normalizedQuery : String) (queryKeywords : List String) :
    List (CacheKey × CacheEntry) → Option (CacheKey × CacheEntry)
  | [] => none
  | kv :: rest =>
    if kv.2.PortfolioID ≠ portfolioID then
      findSimilar now ttl threshold portfolioID normalizedQuery queryKeywords rest
    else if ttl ≤ now - kv.2.CreatedAt then
      findSimilar now ttl threshold portfolioID normalizedQuery queryKeywords rest
    else if threshold ≤ calculateSimilarity normalizedQuery queryKeywords kv.2 then
      some kv
    else
      findSimilar now ttl threshold portfolioID normalizedQuery queryKeywords rest

/-- Go `(*QueryCache).Get`: exact-hash lookup first, then the similarity
scan; returns the deep clone and the cache with the hit counter bumped. -/
def cacheGet (c : QueryCache) (now : Nat) (query portfolioID : String) :
    Option Response × QueryCache :=
  let hash := hashQuery query portfolioID
  let exact :=
    match lookupAssoc c.cache hash with
    | some entry => if now - entry.CreatedAt < c.ttl then some (hash, entry) else none
    | none => none
  match exact with
  | some (k, entry) =>
    (some (cloneResponse entry.Response), { c with cache := bumpHit c.cache k })
  | none =>
    let normalizedQuery := normalizeQuery query
    let queryKeywords := extractKeywords query
    match findSimilar now c.ttl c.threshold portfolioID normalizedQuery queryKeywords c.cache with
    | some (k, entry) =>
      (some (cloneResponse entry.Response), { c with cache := bumpHit c.cache k })
    | none => (none, c)

/-- Insert (or overwrite) a binding, modelling a Go map store: any previous
binding of the key is dropped and the new one added (where the binding sits
in the list is immaterial, since Go map iteration order is unspecified). -/
def insertKV (l : List (CacheKey × CacheEntry)) (k : CacheKey) (v : CacheEntry) :
    List (CacheKey × CacheEntry) :=
  (k, v) :: l.filter fun kv => kv.1 ≠ k

/-- Delete a binding from the association list, modelling a Go map delete. -/
def eraseKV (l : List (CacheKey × CacheEntry)) (k : CacheKey) :
    List (CacheKey × CacheEntry) :=
  l.filter fun kv => kv.1 ≠ k

/-- Oldest-first ordering on cache bindings (by creation timestamp). -/
def byAge (a b : CacheKey × CacheEntry) : Prop :=
  a.2.CreatedAt ≤ b.2.CreatedAt

instance : DecidableRel byAge := fun a b => Nat.decLe a.2.CreatedAt b.2.CreatedAt

instance : IsTotal (CacheKey × CacheEntry) byAge :=
  ⟨fun a b => Nat.le_total a.2.CreatedAt b.2.CreatedAt⟩

instance : IsTrans (CacheKey × CacheEntry) byAge :=
  ⟨fun _ _ _ hab hbc => Nat.le_trans hab hbc⟩

/-- Go `evictOldest`: delete the oldest `maxEntries/10` (at least 1) entries
by creation timestamp.  The Go code materializes the `(hash, age)` pairs of
the map (in unspecified iteration order) and selection-sorts them by age;
the model sorts the bindings by age directly — ties between equal
timestamps are broken arbitrarily in both. -/
def evictOldest (maxEntries : Nat) (cache : List (CacheKey × CacheEntry)) :
    List (CacheKey × CacheEntry) :=
  let evictCount := if maxEntries / 10 < 1 then 1 else maxEntries / 10
  let sorted := List.insertionSort byAge cache
  ((sorted.take evictCount).map Prod.fst).foldl eraseKV cache

/-- The entry `Set` stores (the struct literal inside `(*QueryCache).Set`). -/
def cacheNewEntry (now : Nat) (query portfolioID : String)
    (response : Response) : CacheEntry where
  Query := normalizeQuery query
  QueryHash := hashQuery query portfolioID
  PortfolioID := portfolioID
  Response := response
  Keywords := extractKeywords query
  CreatedAt := now
  HitCount := 0

/-- Go `(*QueryCache).Set`: evict if at capacity, then store the entry. -/
def cacheSet (c : QueryCache) (now : Nat) (query portfolioID : String)
    (response : Response) : QueryCache :=
  let c :=
    if c.maxEntries ≤ c.cache.length then
      { c with cache := evictOldest c.maxEntries c.cache }
    else c
  let entry := cacheNewEntry now query portfolioID response
  { c with cache := insertKV c.cache (hashQuery query portfolioID) entry }

/-- Go `(*QueryCache).Invalidate`: remove all entries for a portfolio. -/
def cacheInvalidate (c : QueryCache) (portfolioID : String) : QueryCache :=
  { c with cache := c.cache.filter fun kv => kv.2.PortfolioID ≠ portfolioID }

/-- Go `(*QueryCache).cleanup`: remove expired entries (the body of the
5-minute background sweep). -/
def cacheCleanup (c : QueryCache) (now : Nat) : QueryCache :=
  { c with cache := c.cache.filter fun kv => now - kv.2.CreatedAt < c.ttl }

/-- Well-formedness of a cache table: keys are distinct (it models a Go map)
and every binding sits at the key `Set` computed for it, whose second
component is the entry's portfolio id.  `Set` establishes this and every
operation preserves it. -/
def WFCache (l : List (CacheKey × CacheEntry)) : Prop :=
  (l.map Prod.fst).Nodup ∧ ∀ kv ∈ l, kv.1.2 = kv.2.PortfolioID

instance (l : List (CacheKey × CacheEntry)) : Decidable (WFCache l) := by
  unfold WFCache
  infer_instance

/-- A cache operation, for stating invariants over arbitrary operation
sequences (`Get`, `Set`, `Invalidate` and the periodic `cleanup` are the
only transitions that touch the table). -/
inductive CacheOp where
  | setOp (now : Nat) (query portfolioID : String) (response : Response)
  | getOp (now : Nat) (query portfolioID : String)
  | invalidateOp (portfolioID : String)
  | cleanupOp (now : Nat)

/-- Apply one cache operation to the cache state. -/
def applyOp (c : QueryCache) : CacheOp → QueryCache
  | CacheOp.setOp now query portfolioID response => cacheSet c now query portfolioID response
  | CacheOp.getOp now query portfolioID => (cacheGet c now query portfolioID).2
  | CacheOp.invalidateOp portfolioID => cacheInvalidate c portfolioID
  | CacheOp.cleanupOp now => cacheCleanup c now

/-- Run a sequence of cache operations. -/
def runOps (c : QueryCache) (ops : List CacheOp) : QueryCache :=
  ops.foldl applyOp c

/-! ### Audit logger (`audit.go`) -/

/-- Go `AuditEntry` (a logged AI interaction). -/
structure AuditEntry where
  ID : String
  Timestamp : Nat
  UserID : String
  QueryID : String
  QueryText : String
  QueryIntent : QueryIntent
  ResponseID : String
  ResponseModel : Model
  TokensUsed : TokenUsage
  Cached : Bool
  ProcessingMs : Nat
  Sources : List String
  Disclaimers : List String
deriving DecidableEq, Repr

/-- Go `AuditLogger` (the stdout JSON writer is outside the model; the
in-memory `entries` slice is what the claims are about). -/
structure AuditLogger where
  enabled : Bool
  entries : List AuditEntry
deriving DecidableEq, Repr

/-- Go `NewAuditLogger`. -/
def NewAuditLogger (enabled : Bool) : AuditLogger where
  enabled := enabled
  entries := []

/-- Go `(*AuditLogger).Log`: append one entry per recorded interaction
(no-op when disabled). -/
def AuditLogger.Log (al : AuditLogger) (now : Nat) (query : Query)
    (response : Response) : AuditLogger :=
  if al.enabled = false then al
  else
    let sources := response.Sources.map fun src => src.Reference
    let entry : AuditEntry :=
      { ID := response.ID
        Timestamp := now
        UserID := query.UserID
        QueryID := query.ID
        QueryText := query.Text
        QueryIntent := response.Intent
        ResponseID := response.ID
        ResponseModel := response.Model
        TokensUsed := response.TokensUsed
        Cached := response.Cached
        ProcessingMs := response.ProcessingMs
        Sources := sources
        Disclaimers := response.Disclaimers }
    { al with entries := al.entries ++ [entry] }

/-! ### Portfolio domain model (`internal/models`) -/

/-- Go `AssetClass` (a string categorizing holdings). -/
abbrev AssetClass := String

def AssetClassEquity : AssetClass := "equity"

def AssetClassFixedIncome : AssetClass := "fixed_income"

def AssetClassAlternative : AssetClass := "alternative"

def AssetClassCrypto : AssetClass := "crypto"

def AssetClassCash : AssetClass := "cash"

def AssetClassOther : AssetClass := "other"

/-- Go `(AssetClass).DisplayName`. -/
def AssetClass.DisplayName (a : AssetClass) : String :=
  if a = AssetClassEquity then "Equities"
  else if a = AssetClassFixedIncome then "Fixed Income"
  else if a = AssetClassAlternative then "Alternatives"
  else if a = AssetClassCrypto then "Cryptocurrency"
  else if a = AssetClassCash then "Cash"
  else if a = AssetClassOther then "Other"
  else a

/-- Go `models.Holding` (the fields the AI subsystem reads; identifier
and provenance metadata elided). -/
structure Holding where
  Ticker : String
  Name : String
  Quantity : Rat
  CostBasis : Rat
  CurrentPrice : Rat
  MarketValue : Rat
  AssetClass : AssetClass
  Sector : String
  Geography : String
deriving DecidableEq, Repr

/-- Go `(*Holding).GainLoss`: unrealized gain/loss. -/
def Holding.GainLoss (h : Holding) : Rat :=
  h.MarketValue - h.CostBasis

/-- Go `models.Portfolio` (the fields the AI subsystem reads). -/
structure Portfolio where
  ID : String
  Name : String
  Holdings : List Holding
  TotalValue : Rat
  FreeCash : Rat
deriving DecidableEq, Repr

/-! ### Decimal rounding and formatting helpers (shopspring `decimal`) -/

/-- The integer nearest `x * 10^places`, rounding half away from zero
(shopspring `Decimal.Round` / `StringFixed` semantics). -/
def roundHalfAwayScaled (x : Rat) (places : Nat) : Int :=
  let y := x * ((10 : Rat) ^ places)
  if 0 ≤ y then (y + 1/2).floor else -((-y + 1/2).floor)

/-- Go `d.Round(places)` on the `Rat` model of `decimal.Decimal`. -/
def decimalRound (x : Rat) (places : Nat) : Rat :=
  ((roundHalfAwayScaled x places : Int) : Rat) / ((10 : Rat) ^ places)

/-- Left-pad a digit string with zeros to length `n`. -/
def padZeros (s : String) (n : Nat) : String :=
  String.mk (List.replicate (n - s.length) (Char.ofNat 48)) ++ s

/-- Go `d.StringFixed(places)` on the `Rat` model of `decimal.Decimal`. -/
def stringFixed (x : Rat) (places : Nat) : String :=
  let n := roundHalfAwayScaled x places
  let sign := if n < 0 then "-" else ""
  let a := n.natAbs
  if places = 0 then sign ++ toString a
  else sign ++ toString (a / 10 ^ places) ++ "." ++ padZeros (toString (a % 10 ^ places)) places

/-! ### Tax opportunity analyzer (`tax.go`) -/

/-- Go `TaxLotType`. -/
abbrev TaxLotType := String

def TaxLotShortTerm : TaxLotType := "short_term"

def TaxLotLongTerm : TaxLotType := "long_term"

/-- Go `TaxOptimizer` configuration. -/
structure TaxOptimizer where
  washSaleWindow : Nat
  longTermThreshold : Nat
  minLossThreshold : Rat
deriving Repr

/-- Go `NewTaxOptimizer`. -/
def NewTaxOptimizer : TaxOptimizer where
  washSaleWindow := 30 * 24 * nsPerHour
  longTermThreshold := 365 * 24 * nsPerHour
  minLossThreshold := 100

/-- Go `HarvestOpportunity`. -/
structure HarvestOpportunity where
  Ticker : String
  Name : String
  CurrentValue : Rat
  CostBasis : Rat
  UnrealizedLoss : Rat
  LossPercent : Rat
  LotType : TaxLotType
  EstimatedSavings : Rat
  Alternatives : List String
  WashSaleRisk : Bool
  Notes : String
deriving DecidableEq, Repr

/-- Go `TaxSummary`. -/
structure TaxSummary where
  TotalUnrealizedGains : Rat
  TotalUnrealizedLosses : Rat
  NetUnrealized : Rat
  ShortTermGains : Rat
  ShortTermLosses : Rat
  LongTermGains : Rat
  LongTermLosses : Rat
  HarvestableAmount : Rat
  EstimatedTaxSavings : Rat
  Opportunities : List HarvestOpportunity
  Recommendations : List String
  Disclaimers : List String
deriving DecidableEq, Repr

/-- Go `(*TaxOptimizer).findAlternatives`. -/
def findAlternatives (holding : Holding) : List String :=
  if holding.AssetClass = AssetClassEquity then
    if holding.Geography = "US" then
      [ "Consider a different S&P 500 ETF (VOO → IVV or SPY)",
        "Total market ETF as alternative (VTI, ITOT)" ]
    else
      [ "Consider equivalent international ETF from different provider" ]
  else if holding.AssetClass = AssetClassFixedIncome then
    [ "Consider bond ETF from different provider",
      "Treasury ETF as alternative to corporate bonds" ]
  else
    [ "Consult advisor for suitable alternatives" ]

/-- Go `(*TaxOptimizer).hasRelatedHoldings`: another holding with the same
asset class, sector and geography. -/
def hasRelatedHoldings (holding : Holding) (portfolio : Portfolio) : Bool :=
  portfolio.Holdings.any fun h =>
    ¬ h.Ticker = holding.Ticker ∧
      h.AssetClass = holding.AssetClass ∧
      h.Sector = holding.Sector ∧
      h.Geography = holding.Geography

/-- Go `(*TaxOptimizer).generateNotes`. -/
def generateNotes (holding : Holding) (lossPercent : Rat) (washSaleRisk : Bool) : String :=
  let notes := holding.Ticker ++ " is down " ++ stringFixed lossPercent 1 ++ "% from cost basis. "
  let notes := if 20 < lossPercent then notes ++ "Significant loss may warrant harvesting. " else notes
  if washSaleRisk then
    notes ++ "CAUTION: Wash sale risk if you have similar holdings or plan to repurchase within 30 days."
  else
    notes ++ "Consider replacing with similar but not substantially identical investment."

/-- Go `(*TaxOptimizer).createHarvestOpportunity`.  `decimal.Div` (16-digit
precision) is modelled as exact rational division; the subsequent 2-place
rounding is kept. -/
def createHarvestOpportunity (holding : Holding) (loss : Rat)
    (portfolio : Portfolio) : HarvestOpportunity :=
  let lossPercent :=
    if holding.CostBasis = 0 then 0 else decimalRound (loss / holding.CostBasis * 100) 2
  let estimatedSavings := decimalRound (loss * (20/100)) 2
  let alternatives := findAlternatives holding
  let washSaleRisk := 0 < alternatives.length ∧ hasRelatedHoldings holding portfolio
  { Ticker := holding.Ticker
    Name := holding.Name
    CurrentValue := holding.MarketValue
    CostBasis := holding.CostBasis
    UnrealizedLoss := loss
    LossPercent := lossPercent
    LotType := TaxLotLongTerm
    EstimatedSavings := estimatedSavings
    Alternatives := alternatives
    WashSaleRisk := washSaleRisk
    Notes := generateNotes holding lossPercent washSaleRisk }

/-- The per-holding accumulation step of `AnalyzeTaxOpportunities` (the body
of its `for _, holding := range portfolio.Holdings` loop). -/
def analyzeHolding (t : TaxOptimizer) (portfolio : Portfolio)
    (summary : TaxSummary) (holding : Holding) : TaxSummary :=
  let gainLoss := holding.GainLoss
  if 0 < gainLoss then
    { summary with
        TotalUnrealizedGains := summary.TotalUnrealizedGains + gainLoss
        LongTermGains := summary.LongTermGains + gainLoss }
  else if gainLoss < 0 then
    let loss := |gainLoss|
    let summary :=
      { summary with
          TotalUnrealizedLosses := summary.TotalUnrealizedLosses + loss
          LongTermLosses := summary.LongTermLosses + loss }
    if t.minLossThreshold ≤ loss then
      { summary with
          Opportunities := summary.Opportunities ++ [createHarvestOpportunity holding loss portfolio]
          HarvestableAmount := summary.HarvestableAmount + loss }
    else summary
  else summary

/-- Ordered insert for the descending-by-loss sort of the opportunities. -/
def insertByLossDesc (opp : HarvestOpportunity) :
    List HarvestOpportunity → List HarvestOpportunity
  | [] => [opp]
  | hd :: tl =>
    if hd.UnrealizedLoss < opp.UnrealizedLoss then opp :: hd :: tl
    else hd :: insertByLossDesc opp tl

/-- The `sort.Slice` call of `AnalyzeTaxOpportunities` (largest loss first),
modelled as an insertion sort. -/
def sortByLossDesc : List HarvestOpportunity → List HarvestOpportunity
  | [] => []
  | opp :: rest => insertByLossDesc opp (sortByLossDesc rest)

/-- Go `(*TaxOptimizer).generateRecommendations`.  `month` models
`time.Now().Month()` (1–12). -/
def generateRecommendations (month : Nat) (summary : TaxSummary) : List String :=
  let recs : List String := []
  let recs :=
    if 1000 < summary.HarvestableAmount then
      recs ++ ["You have approximately $" ++ stringFixed summary.HarvestableAmount 0 ++
        " in harvestable losses that could offset gains or income."]
    else recs
  let recs :=
    if 0 < summary.TotalUnrealizedGains ∧ 0 < summary.TotalUnrealizedLosses then
      recs ++ ["Consider pairing loss harvesting with gain realization to optimize tax impact."]
    else recs
  let recs :=
    match summary.Opportunities with
    | [] => recs
    | topOpp :: _ =>
      if 30 < topOpp.LossPercent then
        recs ++ [topOpp.Ticker ++ " has a significant loss (" ++
          stringFixed topOpp.LossPercent 1 ++ "%). Review if this aligns with your investment thesis."]
      else recs
  let recs :=
    if 10 ≤ month then
      recs ++ ["Year-end is approaching. Consider tax-loss harvesting before December 31 for current tax year benefits."]
    else recs
  let recs :=
    recs ++ ["Remember: Capital losses can offset capital gains, plus up to $3,000 of ordinary income annually."]
  if recs.length = 0 then
    ["No significant tax optimization opportunities identified at this time."]
  else recs

/-- The fixed disclaimer set attached to every `TaxSummary`. -/
def taxDisclaimers : List String :=
  [ "This analysis is for educational purposes only and does not constitute tax advice.",
    "Consult a qualified tax professional before making tax-related decisions.",
    "Tax implications vary based on individual circumstances.",
    "Wash sale rules may affect the deductibility of losses." ]

/-- Go `(*TaxOptimizer).AnalyzeTaxOpportunities`: the nil portfolio pointer
is `none`; `month` models the `time.Now()` read in the recommendations. -/
def AnalyzeTaxOpportunities (t : TaxOptimizer) (month : Nat)
    (portfolio : Option Portfolio) : TaxSummary :=
  let summary : TaxSummary :=
    { TotalUnrealizedGains := 0
      TotalUnrealizedLosses := 0
      NetUnrealized := 0
      ShortTermGains := 0
      ShortTermLosses := 0
      LongTermGains := 0
      LongTermLosses := 0
      HarvestableAmount := 0
      EstimatedTaxSavings := 0
      Opportunities := []
      Recommendations := []
      Disclaimers := taxDisclaimers }
  match portfolio with
  | none => summary
  | some portfolio =>
    if portfolio.Holdings.length = 0 then summary
    else
      let summary := portfolio.Holdings.foldl (analyzeHolding t portfolio) summary
      let summary := { summary with NetUnrealized := summary.TotalUnrealizedGains - summary.TotalUnrealizedLosses }
      let shortTermSavings := summary.ShortTermLosses * ((24 : Rat)/100)
      let longTermSavings := summary.LongTermLosses * ((15 : Rat)/100)
      let summary := { summary with EstimatedTaxSavings := decimalRound (shortTermSavings + longTermSavings) 2 }
      let summary := { summary with Opportunities := sortByLossDesc summary.Opportunities }
      { summary with Recommendations := generateRecommendations month summary }

/-! ### Orchestrator (`service.go`) -/

/-- Go `Service`: orchestrator state.  The HTTP client and router hold no
state; `dailyTokens` models the Go map as a total function defaulting to 0. -/
structure Service where
  cfg : Config
  cache : QueryCache
  auditor : AuditLogger
  dailyTokens : String → Nat
  lastReset : Nat

/-- Go `NewService` (a nil `cfg` pointer is `none`). -/
def NewService (cfg : Option Config) (now : Nat) : Service :=
  let cfg := match cfg with | none => DefaultConfig | some cfg => cfg
  { cfg := cfg
    cache := NewQueryCache cfg.CacheTTL cfg.SemanticCacheThresh
    auditor := NewAuditLogger cfg.EnableAuditLog
    dailyTokens := fun _ => 0
    lastReset := now }

/-- Go `(*Service).checkRateLimits`: reset the daily counters on a >24h
window rollover, then reject a user at or over the daily token budget. -/
def checkRateLimits (s : Service) (now : Nat) (userID : String) :
    Except String Unit × Service :=
  let s :=
    if nsPerDay < now - s.lastReset then
      { s with dailyTokens := fun _ => 0, lastReset := now }
    else s
  if s.cfg.DailyTokenBudget ≤ s.dailyTokens userID then
    (Except.error "daily token limit exceeded", s)
  else
    (Except.ok (), s)

/-- Go `(*Service).trackUsage`: record token usage for a user. -/
def trackUsage (s : Service) (userID : String) (usage : TokenUsage) : Service :=
  { s with dailyTokens := fun u =>
      if u = userID then s.dailyTokens u + usage.Total else s.dailyTokens u }

/-- The fixed refusal text of `blockedResponse`. -/
def blockedText : String :=
  "I can\x27t provide specific investment recommendations, guaranteed return predictions, or personalized tax advice.\n\nHowever, I can help you with:\n- Understanding your current portfolio allocation and risk exposure\n- Explaining financial concepts and investment strategies\n- Analyzing historical performance and metrics\n- Comparing different asset classes and their characteristics\n\nPlease rephrase your question, and I\x27ll do my best to provide educational information."

/-- The fixed disclaimer attached to a blocked response. -/
def blockedDisclaimer : String :=
  "This response was generated because your query appeared to request specific investment advice, which we cannot provide."

/-- Go `(*Service).blockedResponse`: the templated refusal for blocked
queries.  `newID` models `uuid.New()`; `ProcessingMs` is 0 because the model
treats the whole call as instantaneous (`time.Since(startTime)`). -/
def blockedResponse (cfg : Config) (newID : String) (query : Query)
    (intent : QueryIntent) (now : Nat) : Response where
  ID := newID
  QueryID := query.ID
  Text := blockedText
  Sources := []
  Disclaimers := [blockedDisclaimer]
  Model := cfg.SimpleModel
  Intent := intent
  TokensUsed := { Input := 0, Output := 0, Total := 0 }
  Cached := false
  ProcessingMs := 0
  Timestamp := now

/-- Go `(*Service).getDisclaimers`. -/
def getDisclaimers (intent : QueryIntent) : List String :=
  let base :=
    [ "This information is AI-generated and for educational purposes only.",
      "This does not constitute investment, tax, or legal advice.",
      "Past performance does not guarantee future results." ]
  if intent = IntentTax then
    base ++ ["Consult a qualified tax professional for personalized tax advice."]
  else if intent = IntentRisk then
    base ++ ["Risk assessments are based on historical data and may not reflect future conditions."]
  else if intent = IntentProjection then
    base ++ ["Projections are hypothetical and based on assumptions that may not materialize."]
  else base

/-- The dedup-by-reference pass at the end of `extractSources` (keeps the
first occurrence of each reference). -/
def dedupSources : List Source → List String → List Source
  | [], _ => []
  | src :: rest, seen =>
    if seen.contains src.Reference then dedupSources rest seen
    else src :: dedupSources rest (seen ++ [src.Reference])

/-- Go `(*Service).extractSources`: cite each portfolio holding whose ticker
appears in the response text, deduplicated. -/
def extractSources (response : String) (portfolio : Option Portfolio) : List Source :=
  match portfolio with
  | none => []
  | some portfolio =>
    let sources := portfolio.Holdings.filterMap fun h =>
      if strContains response h.Ticker then
        some { SrcType := "holding", Reference := h.Ticker, Description := h.Name, URL := "" }
      else none
    dedupSources sources []

/-- The fixed part of the system prompt (the Go raw string literal in
`buildSystemPrompt`). -/
def systemPromptHeader : String :=
  "You are TrueNorth AI, a sophisticated portfolio analysis assistant for high-net-worth DIY investors.\n\n## Your Role\n- Provide factual, data-driven portfolio analysis\n- Help users understand their investments, risks, and opportunities\n- Explain financial concepts clearly\n- Cite specific holdings and data when answering\n\n## Critical Rules\n1. NEVER provide specific buy/sell recommendations for individual securities\n2. NEVER guarantee returns or predict specific price movements\n3. NEVER provide tax advice - only educational information about tax concepts\n4. ALWAYS include relevant disclaimers\n5. ALWAYS cite sources for numerical claims\n6. If you don\x27t have data to answer accurately, say so clearly\n\n## Response Format\n- Be concise but thorough\n- Use bullet points for clarity\n- Include specific numbers from the portfolio when relevant\n- End with actionable next steps when appropriate\n\n"

/-- Go `(*Service).buildSystemPrompt`: compliance header plus a rendered
portfolio snapshot (top 10 holdings). -/
def buildSystemPrompt (portfolio : Option Portfolio) : String :=
  let sb := systemPromptHeader
  match portfolio with
  | none => sb
  | some portfolio =>
    if portfolio.Holdings.length = 0 then sb
    else
      let sb := sb ++ "\n## Current Portfolio Summary\n"
      let sb := sb ++ "- Total Value: $" ++ stringFixed portfolio.TotalValue 2 ++ "\n"
      let sb := sb ++ "- Number of Holdings: " ++ toString portfolio.Holdings.length ++ "\n"
      let sb := sb ++ "\n### Top Holdings:\n"
      (portfolio.Holdings.take 10).foldl (fun sb h =>
        let pct :=
          if portfolio.TotalValue = 0 then "0.00"
          else stringFixed (h.MarketValue / portfolio.TotalValue * 100) 2
        sb ++ "- " ++ h.Ticker ++ " (" ++ h.AssetClass.DisplayName ++ "): $" ++
          stringFixed h.MarketValue 2 ++ " (" ++ pct ++ "%)\n") sb

/-- Go `(*Service).buildUserPrompt`: query text plus flattened context. -/
def buildUserPrompt (query : Query) : String :=
  let sb := query.Text
  if query.Context.length = 0 then sb
  else
    let sb := sb ++ "\n\nAdditional context:\n"
    query.Context.foldl (fun sb kv => sb ++ "- " ++ kv.1 ++ ": " ++ kv.2 ++ "\n") sb

/-- The observable outcome of the remote Claude call (`callClaude`): either
a transport/API/parse error or the generated text with input and output
token counts.  The network is outside the model, so the outcome is threaded
in as an oracle; `callClaude` then assembles `TokenUsage` with
`Total = Input + Output`. -/
abbrev RemoteOracle := String → String → Except String (String × Nat × Nat)

/-- Go `(*Service).Ask`: the per-request orchestration — rate-limit check,
intent classification, blocklist refusal, cache lookup, remote call, usage
tracking, disclaimers, source extraction, cache store, audit log.
`newQueryID`/`newRespID` model the two `uuid.New()` calls and `now` the
wall-clock reads; the call is modelled as instantaneous, so every
`time.Since` is 0 and every timestamp is `now`. -/
def ask (s : Service) (now : Nat) (newQueryID newRespID : String)
    (remote : RemoteOracle) (query : Query) (portfolio : Option Portfolio) :
    Except String Response × Service :=
  let query := { query with
    ID := if query.ID = "" then newQueryID else query.ID
    Timestamp := now }
  match checkRateLimits s now query.UserID with
  | (Except.error e, s) => (Except.error e, s)
  | (Except.ok _, s) =>
    let intent := ClassifyIntent query.Text
    if intent = IntentUnsupported then
      (Except.ok (blockedResponse s.cfg newRespID query intent now), s)
    else
      let cacheStep :=
        if s.cfg.CacheEnabled then cacheGet s.cache now query.Text query.PortfolioID
        else (none, s.cache)
      match cacheStep with
      | (some cached, cache) =>
        (Except.ok { cached with Cached := true, QueryID := query.ID, ProcessingMs := 0 },
          { s with cache := cache })
      | (none, cache) =>
        let s := { s with cache := cache }
        let model := SelectModel s.cfg intent query.Text
        let systemPrompt := buildSystemPrompt portfolio
        let userPrompt := buildUserPrompt query
        match remote systemPrompt userPrompt with
        | Except.error e => (Except.error ("claude API error: " ++ e), s)
        | Except.ok (text, inputTokens, outputTokens) =>
          let usage : TokenUsage :=
            { Input := inputTokens, Output := outputTokens, Total := inputTokens + outputTokens }
          let s := trackUsage s query.UserID usage
          let resp : Response :=
            { ID := newRespID
              QueryID := query.ID
              Text := text
              Sources := []
              Disclaimers := []
              Model := model
              Intent := intent
              TokensUsed := usage
              Cached := false
              ProcessingMs := 0
              Timestamp := now }
          let resp :=
            if s.cfg.EnableDisclaimers then { resp with Disclaimers := getDisclaimers intent }
            else resp
          let resp := { resp with Sources := extractSources text portfolio }
          let s :=
            if s.cfg.CacheEnabled then
              { s with cache := cacheSet s.cache now query.Text query.PortfolioID resp }
            else s
          let s := { s with auditor := s.auditor.Log now query resp }
          (Except.ok resp, s)

/-! ### Concrete fixtures used by the witness theorems -/

/-- A concrete response used by the cache witnesses. -/
def sampleResponse : Response where
  ID := "r1"
  QueryID := "q1"
  Text := "answer"
  Sources := []
  Disclaimers := ["d"]
  Model := ModelHaiku
  Intent := IntentSimple
  TokensUsed := { Input := 1, Output := 2, Total := 3 }
  Cached := false
  ProcessingMs := 0
  Timestamp := 5

/-- A concrete holding with an unrealized gain of $20,000. -/
def sampleGainHolding : Holding where
  Ticker := "AAPL"
  Name := "Apple Inc"
  Quantity := 100
  CostBasis := 80000
  CurrentPrice := 1000
  MarketValue := 100000
  AssetClass := AssetClassEquity
  Sector := "Technology"
  Geography := "US"

/-- A concrete holding with an unrealized loss of $15,000. -/
def sampleLossHolding : Holding where
  Ticker := "TSLA"
  Name := "Tesla Inc"
  Quantity := 200
  CostBasis := 65000
  CurrentPrice := 250
  MarketValue := 50000
  AssetClass := AssetClassEquity
  Sector := "Automotive"
  Geography := "US"

/-- A concrete two-holding portfolio (one gain, one loss). -/
def samplePortfolio : Portfolio where
  ID := "pf1"
  Name := "Family Portfolio"
  Holdings := [sampleGainHolding, sampleLossHolding]
  TotalValue := 150000
  FreeCash := 0

/-- A fresh default-configured service (the witness orchestrator state). -/
def sampleService : Service := NewService none 0

/-- A concrete blocklist-matching query. -/
def sampleBlockedQuery : Query where
  ID := "q1"
  UserID := "u1"
  Text := "Should I buy AAPL?"
  PortfolioID := "p1"
  Context := []
  Timestamp := 0

/-- A concrete non-blocked risk query. -/
def sampleRiskQuery : Query where
  ID := "q2"
  UserID := "u1"
  Text := "What is my risk exposure?"
  PortfolioID := "p1"
  Context := []
  Timestamp := 0

/-- A remote oracle that always answers successfully. -/
def sampleRemoteOk : RemoteOracle := fun _ _ => Except.ok ("The answer.", 100, 50)

/-- A remote oracle that always fails (used to show blocked queries never
reach the remote call). -/
def sampleRemoteErr : RemoteOracle := fun _ _ => Except.error "network unreachable"

/-- A cache entry fixture (stored at timestamp 1 under portfolio "p1"). -/
def sampleEntryOne : CacheEntry := cacheNewEntry 1 "alpha query" "p1" sampleResponse

/-- A cache entry fixture (stored at timestamp 2 under portfolio "p2"). -/
def sampleEntryTwo : CacheEntry := cacheNewEntry 2 "beta query" "p2" sampleResponse

/-- A well-formed cache state at capacity (capacity 2, two entries), for
exercising the eviction path concretely. -/
def sampleFullCache : QueryCache where
  cache := [(hashQuery "alpha query" "p1", sampleEntryOne),
    (hashQuery "beta query" "p2", sampleEntryTwo)]
  ttl := nsPerHour
  threshold := 92/100
  maxEntries := 2

/-! ### Claim theorems: intent classifier -/

/-- Claim C2: for every query text that contains at least one blocklist
phrase after lower-casing, `ClassifyIntent` returns `Unsupported`,
regardless of any other keyword content (the blocklist check runs first and
short-circuits). -/
theorem C2_blocklist_unsupported (q : String)
    (h : isBlockedQuery (strToLower q) = true) :
    ClassifyIntent q = IntentUnsupported := by
  simp [ClassifyIntent, h]

/-- Witness for C2 at the concrete blocked query "Should I buy AAPL?",
which also contains the analytical keyword "my". -/
theorem C2_witness :
    isBlockedQuery (strToLower "Should I buy AAPL?") = true ∧
    ClassifyIntent "Should I buy AAPL?" = IntentUnsupported :=
  ⟨by decide, C2_blocklist_unsupported "Should I buy AAPL?" (by decide)⟩

/-- Counterexample to claim C6 as stated: the query "guaranteed tax risk"
contains a tax keyword ("tax") and a risk keyword ("risk") but classifies
as `Unsupported`, not `Tax`, because it also matches the blocklist phrase
"guaranteed", which has absolute priority over every keyword group. -/
theorem C6_counterexample :
    containsAny (strToLower "guaranteed tax risk") taxKeywords = true ∧
    containsAny (strToLower "guaranteed tax risk") riskKeywords = true ∧
    ClassifyIntent "guaranteed tax risk" ≠ IntentTax ∧
    ClassifyIntent "guaranteed tax risk" = IntentUnsupported := by
  refine ⟨by decide, by decide, by decide, by decide⟩

/-- Claim C6 (amended): for every query text that does not match the
blocklist, if it contains both a tax keyword and a risk keyword then
`ClassifyIntent` returns `Tax` — the Tax group is evaluated before the Risk
group in the fixed priority order. -/
theorem C6_tax_priority_amended (q : String)
    (hb : isBlockedQuery (strToLower q) = false)
    (ht : containsAny (strToLower q) taxKeywords = true)
    (_hr : containsAny (strToLower q) riskKeywords = true) :
    ClassifyIntent q = IntentTax := by
  simp [ClassifyIntent, hb, ht]

/-- Witness for C6 (amended) at the concrete query
"capital gains tax under risk", which contains tax and risk keywords and
does not match the blocklist. -/
theorem C6_witness :
    isBlockedQuery (strToLower "capital gains tax under risk") = false ∧
    containsAny (strToLower "capital gains tax under risk") taxKeywords = true ∧
    containsAny (strToLower "capital gains tax under risk") riskKeywords = true ∧
    ClassifyIntent "capital gains tax under risk" = IntentTax :=
  ⟨by decide, by decide, by decide,
    C6_tax_priority_amended "capital gains tax under risk" (by decide) (by decide) (by decide)⟩

/-- Claim C9: `ClassifyIntent` never returns `Compliance`; its range is
limited to the eight intents that actually occur in its rule chain. -/
theorem C9_no_compliance_intent (q : String) :
    ClassifyIntent q ∈
      [IntentUnsupported, IntentTax, IntentRisk, IntentProjection, IntentResearch,
        IntentComparison, IntentAnalytical, IntentSimple] ∧
    ClassifyIntent q ≠ IntentCompliance := by
  simp only [ClassifyIntent]
  split_ifs <;> exact ⟨by decide, by decide⟩


/-! ### Claim theorems: cache round trip (C3) -/

/-- Looking up the key just inserted finds the inserted value. -/
theorem lookupAssoc_insertKV (l : List (CacheKey × CacheEntry)) (k : CacheKey)
    (v : CacheEntry) : lookupAssoc (insertKV l k v) k = some v := by
  simp [insertKV, lookupAssoc]

/-- Bumping the hit counter at `k` only increments `HitCount` there. -/
theorem lookupAssoc_bumpHit (l : List (CacheKey × CacheEntry)) (k : CacheKey) :
    lookupAssoc (bumpHit l k) k =
      (lookupAssoc l k).map fun e => { e with HitCount := e.HitCount + 1 } := by
  induction l with
  | nil => simp [bumpHit, lookupAssoc]
  | cons hd tl ih =>
    by_cases hk : hd.1 = k
    · simp [bumpHit, lookupAssoc, hk]
    · simp only [bumpHit, List.map_cons, if_neg hk, lookupAssoc] at ih ⊢
      exact ih

/-- The deep clone preserves every field, so it is the same value. -/
theorem cloneResponse_eq (r : Response) : cloneResponse r = r := rfl

/-- When the exact-hash lookup hits an unexpired entry, `Get` returns its
clone and bumps its hit counter. -/
theorem cacheGet_exact (c : QueryCache) (now : Nat) (q p : String) (e : CacheEntry)
    (hl : lookupAssoc c.cache (hashQuery q p) = some e)
    (he : now - e.CreatedAt < c.ttl) :
    cacheGet c now q p =
      (some (cloneResponse e.Response),
        { c with cache := bumpHit c.cache (hashQuery q p) }) := by
  unfold cacheGet
  simp only [hl]
  rw [if_pos he]

/-- The cache table after `Set` is the (possibly evicted) table with the new
entry inserted; the configuration fields are untouched. -/
theorem cacheSet_cache (c : QueryCache) (now : Nat) (q p : String) (r : Response) :
    (cacheSet c now q p r).cache =
      insertKV (if c.maxEntries ≤ c.cache.length then evictOldest c.maxEntries c.cache
        else c.cache) (hashQuery q p) (cacheNewEntry now q p r) ∧
    (cacheSet c now q p r).ttl = c.ttl ∧
    (cacheSet c now q p r).threshold = c.threshold ∧
    (cacheSet c now q p r).maxEntries = c.maxEntries := by
  unfold cacheSet
  split <;> simp_all

/-- Claim C3: `Set(q, p, r)` followed immediately by `Get(q, p)` (positive
TTL, same instant, so no expiry) returns a `Response` equal in content to
`r`: the model is value-based and `cloneResponse` copies every field,
including the `Sources` and `Disclaimers` containers, so the returned clone
is the value `r` itself while the Go original is a fresh reference.
Mutating the returned clone cannot change what a subsequent `Get(q, p)`
returns: the second conjunct shows the next `Get`, on the state left by the
first, again returns `r` whatever mutation `mutate` the caller applies to
its copy (the result does not depend on `mutate`, which is the point — the
clone is disjoint from the cache state). -/
theorem C3_cache_roundtrip (c : QueryCache) (now : Nat) (q p : String) (r : Response)
    (h : 0 < c.ttl) :
    (cacheGet (cacheSet c now q p r) now q p).1 = some r ∧
    ∀ _mutate : Response → Response,
      (cacheGet ((cacheGet (cacheSet c now q p r) now q p).2) now q p).1 = some r := by
  obtain ⟨hcache, httl, -, -⟩ := cacheSet_cache c now q p r
  have hl : lookupAssoc (cacheSet c now q p r).cache (hashQuery q p) =
      some (cacheNewEntry now q p r) := by
    rw [hcache]
    exact lookupAssoc_insertKV _ _ _
  have he : now - (cacheNewEntry now q p r).CreatedAt < (cacheSet c now q p r).ttl := by
    show now - now < _
    rw [httl, Nat.sub_self]
    exact h
  have h1 := cacheGet_exact (cacheSet c now q p r) now q p _ hl he
  constructor
  · rw [h1]
    rfl
  · intro _mutate
    rw [h1]
    have hl2 : lookupAssoc (bumpHit (cacheSet c now q p r).cache (hashQuery q p))
        (hashQuery q p) =
        some { cacheNewEntry now q p r with
          HitCount := (cacheNewEntry now q p r).HitCount + 1 } := by
      rw [lookupAssoc_bumpHit, hl]
      rfl
    have h2 := cacheGet_exact
      { cacheSet c now q p r with cache := bumpHit (cacheSet c now q p r).cache (hashQuery q p) }
      now q p _ hl2 he
    rw [h2]
    rfl

/-- Witness for C3: round trip on a fresh default cache with a concrete
query, portfolio id and response. -/
theorem C3_witness :
    0 < (NewQueryCache 0 0).ttl ∧
    (cacheGet (cacheSet (NewQueryCache 0 0) 5 "what is my allocation" "p1" sampleResponse)
      5 "what is my allocation" "p1").1 = some sampleResponse :=
  ⟨by decide,
    (C3_cache_roundtrip (NewQueryCache 0 0) 5 "what is my allocation" "p1" sampleResponse
      (by decide)).1⟩

/-! ### Claim theorems: cache invalidation (C7) -/

/-- A filtered lookup misses when every binding at the key is dropped. -/
theorem lookupAssoc_filter_none (l : List (CacheKey × CacheEntry))
    (P : CacheKey × CacheEntry → Bool) (k : CacheKey)
    (h : ∀ kv ∈ l, kv.1 = k → P kv = false) :
    lookupAssoc (l.filter P) k = none := by
  induction l with
  | nil => simp [lookupAssoc]
  | cons hd tl ih =>
    by_cases hp : P hd = true
    · have hk : ¬ hd.1 = k := fun hk =>
        absurd (h hd (List.mem_cons_self hd tl) hk) (by simp [hp])
      rw [List.filter_cons_of_pos hp]
      simp only [lookupAssoc, if_neg hk]
      exact ih fun kv hkv => h kv (List.mem_cons_of_mem hd hkv)
    · rw [List.filter_cons_of_neg (by simpa using hp)]
      exact ih fun kv hkv => h kv (List.mem_cons_of_mem hd hkv)

/-- A filtered lookup agrees with the unfiltered one when every binding at
the key is kept. -/
theorem lookupAssoc_filter_kept (l : List (CacheKey × CacheEntry))
    (P : CacheKey × CacheEntry → Bool) (k : CacheKey)
    (h : ∀ kv ∈ l, kv.1 = k → P kv = true) :
    lookupAssoc (l.filter P) k = lookupAssoc l k := by
  induction l with
  | nil => simp
  | cons hd tl ih =>
    have ih' := ih fun kv hkv => h kv (List.mem_cons_of_mem hd hkv)
    by_cases hp : P hd = true
    · rw [List.filter_cons_of_pos hp]
      by_cases hk : hd.1 = k
      · simp [lookupAssoc, hk]
      · simp only [lookupAssoc, if_neg hk]
        exact ih'
    · have hk : ¬ hd.1 = k := fun hk =>
        absurd (h hd (List.mem_cons_self hd tl) hk) hp
      rw [List.filter_cons_of_neg (by simpa using hp)]
      simp only [lookupAssoc, if_neg hk]
      exact ih'

/-- The similarity scan finds nothing when no entry belongs to the
requested portfolio. -/
theorem findSimilar_none_of_other (now ttl : Nat) (thr : Rat) (p nq : String)
    (kws : List String) (l : List (CacheKey × CacheEntry))
    (h : ∀ kv ∈ l, kv.2.PortfolioID ≠ p) :
    findSimilar now ttl thr p nq kws l = none := by
  induction l with
  | nil => rfl
  | cons hd tl ih =>
    have hhd := h hd (List.mem_cons_self hd tl)
    simp only [findSimilar, if_pos hhd]
    exact ih fun kv hkv => h kv (List.mem_cons_of_mem hd hkv)

/-- Dropping only entries of other portfolios does not change the
similarity scan for portfolio `p2`. -/
theorem findSimilar_filter_other (now ttl : Nat) (thr : Rat) (p2 nq : String)
    (kws : List String) (P : CacheKey × CacheEntry → Bool)
    (l : List (CacheKey × CacheEntry))
    (h : ∀ kv ∈ l, P kv = false → kv.2.PortfolioID ≠ p2) :
    findSimilar now ttl thr p2 nq kws (l.filter P) =
      findSimilar now ttl thr p2 nq kws l := by
  induction l with
  | nil => simp
  | cons hd tl ih =>
    have ih' := ih fun kv hkv => h kv (List.mem_cons_of_mem hd hkv)
    by_cases hp : P hd = true
    · rw [List.filter_cons_of_pos hp]
      simp only [findSimilar]
      split_ifs <;> first | exact ih' | rfl
    · have hhd : hd.2.PortfolioID ≠ p2 :=
        h hd (List.mem_cons_self hd tl) (by simpa using hp)
      rw [List.filter_cons_of_neg (by simpa using hp)]
      rw [ih']
      simp only [findSimilar, if_pos hhd]

/-- When both lookup stages miss, `Get` returns absent and leaves the cache
unchanged. -/
theorem cacheGet_none (c : QueryCache) (now : Nat) (q p : String)
    (hl : lookupAssoc c.cache (hashQuery q p) = none)
    (hf : findSimilar now c.ttl c.threshold p (normalizeQuery q) (extractKeywords q)
      c.cache = none) :
    cacheGet c now q p = (none, c) := by
  unfold cacheGet
  simp only [hl, hf]

/-- The result of `Get` depends only on the lookup stages (not on the rest
of the state), so two caches whose stages agree return the same response. -/
theorem cacheGet_fst_congr (c c' : QueryCache) (now : Nat) (q p2 : String)
    (httl : c'.ttl = c.ttl) (hthr : c'.threshold = c.threshold)
    (h1 : lookupAssoc c'.cache (hashQuery q p2) = lookupAssoc c.cache (hashQuery q p2))
    (h2 : findSimilar now c.ttl c.threshold p2 (normalizeQuery q) (extractKeywords q)
        c'.cache =
      findSimilar now c.ttl c.threshold p2 (normalizeQuery q) (extractKeywords q) c.cache) :
    (cacheGet c' now q p2).1 = (cacheGet c now q p2).1 := by
  simp only [cacheGet]
  rw [h1, httl, hthr, h2]
  cases lookupAssoc c.cache (hashQuery q p2) with
  | some e =>
    by_cases hexp : now - e.CreatedAt < c.ttl
    · simp [hexp]
    · simp only [if_neg hexp]
      cases findSimilar now c.ttl c.threshold p2 (normalizeQuery q) (extractKeywords q)
        c.cache with
      | some kv => rfl
      | none => rfl
  | none =>
    cases findSimilar now c.ttl c.threshold p2 (normalizeQuery q) (extractKeywords q)
      c.cache with
    | some kv => rfl
    | none => rfl

/-- Claim C7: `Invalidate(p)` removes exactly the entries of portfolio `p`
(first conjunct); afterwards `Get` is absent for every query under `p`
(second conjunct), while `Get` under any other portfolio id returns exactly
what it returned before the invalidation (third conjunct). -/
theorem C7_invalidate_frame (c : QueryCache) (now : Nat) (p : String)
    (hwf : WFCache c.cache) :
    (∀ kv, kv ∈ (cacheInvalidate c p).cache ↔ kv ∈ c.cache ∧ kv.2.PortfolioID ≠ p) ∧
    (∀ q, (cacheGet (cacheInvalidate c p) now q p).1 = none) ∧
    (∀ q p2, p2 ≠ p →
      (cacheGet (cacheInvalidate c p) now q p2).1 = (cacheGet c now q p2).1) := by
  refine ⟨?_, ?_, ?_⟩
  · intro kv
    simp [cacheInvalidate, List.mem_filter]
  · intro q
    have hl : lookupAssoc (cacheInvalidate c p).cache (hashQuery q p) = none := by
      apply lookupAssoc_filter_none
      intro kv hkv hk
      have hpid : kv.1.2 = kv.2.PortfolioID := hwf.2 kv hkv
      have : kv.2.PortfolioID = p := by
        rw [← hpid, hk]
        rfl
      simp [this]
    have hf : findSimilar now (cacheInvalidate c p).ttl (cacheInvalidate c p).threshold p
        (normalizeQuery q) (extractKeywords q) (cacheInvalidate c p).cache = none := by
      apply findSimilar_none_of_other
      intro kv hkv
      have := (List.mem_filter.mp hkv).2
      simpa using this
    rw [cacheGet_none _ now q p hl hf]
  · intro q p2 hne
    apply cacheGet_fst_congr
    · rfl
    · rfl
    · apply lookupAssoc_filter_kept
      intro kv hkv hk
      have hpid : kv.1.2 = kv.2.PortfolioID := hwf.2 kv hkv
      have : kv.2.PortfolioID = p2 := by
        rw [← hpid, hk]
        rfl
      simp [this, hne]
    · apply findSimilar_filter_other
      intro kv hkv hp
      have : kv.2.PortfolioID = p := by simpa using hp
      rw [this]
      exact fun hpp => hne hpp.symm

/-- Witness for C7: a two-portfolio cache; invalidating "p1" removes its
entry, makes its query a miss, and leaves the "p2" entry retrievable. -/
theorem C7_witness :
    WFCache (cacheSet (cacheSet (NewQueryCache 0 0) 5 "query one" "p1" sampleResponse)
      5 "query two" "p2" sampleResponse).cache ∧
    (cacheGet (cacheInvalidate (cacheSet (cacheSet (NewQueryCache 0 0) 5 "query one" "p1"
        sampleResponse) 5 "query two" "p2" sampleResponse) "p1") 5 "query one" "p1").1 =
      none :=
  ⟨by decide,
    (C7_invalidate_frame (cacheSet (cacheSet (NewQueryCache 0 0) 5 "query one" "p1"
      sampleResponse) 5 "query two" "p2" sampleResponse) 5 "p1" (by decide)).2.1 "query one"⟩

/-! ### Claim theorems: usage limiter (C4) -/

/-- Claim C4: `trackUsage` accumulates recorded usage into the user's daily
total and no one else's (first conjunct, so a total at least the budget
means recorded usage summing to at least the budget); within the 24h window
`checkRateLimits` rejects a user whose total has reached the daily budget
(second conjunct) while any user below budget still passes (third
conjunct); and on a call more than 24 hours after the last reset the whole
tracking table resets, so the over-budget user passes again (fourth
conjunct, for a positive budget). -/
theorem C4_usage_limiter (s : Service) (now : Nat) (u v : String)
    (hw : now - s.lastReset ≤ nsPerDay) :
    (∀ usage : TokenUsage,
      (trackUsage s u usage).dailyTokens u = s.dailyTokens u + usage.Total ∧
      ∀ w, w ≠ u → (trackUsage s u usage).dailyTokens w = s.dailyTokens w) ∧
    (s.cfg.DailyTokenBudget ≤ s.dailyTokens u →
      (checkRateLimits s now u).1 = Except.error "daily token limit exceeded") ∧
    (s.dailyTokens v < s.cfg.DailyTokenBudget →
      (checkRateLimits s now v).1 = Except.ok ()) ∧
    ∀ now2, nsPerDay < now2 - s.lastReset → 0 < s.cfg.DailyTokenBudget →
      (checkRateLimits s now2 u).1 = Except.ok () ∧
      (checkRateLimits s now2 u).2.dailyTokens = fun _ => 0 := by
  have hnot : ¬ nsPerDay < now - s.lastReset := Nat.not_lt.mpr hw
  refine ⟨?_, ?_, ?_, ?_⟩
  · intro usage
    constructor
    · simp [trackUsage]
    · intro w hwu
      simp [trackUsage, hwu]
  · intro hover
    simp [checkRateLimits, hnot, hover]
  · intro hunder
    simp [checkRateLimits, hnot, Nat.not_le.mpr hunder]
  · intro now2 hroll hbudget
    have hz : ¬ s.cfg.DailyTokenBudget ≤ 0 := Nat.not_le.mpr hbudget
    constructor
    · simp [checkRateLimits, hroll, hz]
    · simp [checkRateLimits, hroll, hz]

/-- Witness for C4: a service whose user "u1" has consumed exactly the
default budget while "u2" has consumed none, at a rollover-free instant and
after a 25-hour gap. -/
theorem C4_witness :
    (0 : Nat) - sampleService.lastReset ≤ nsPerDay ∧
    sampleService.cfg.DailyTokenBudget ≤
      ({ sampleService with
        dailyTokens := fun uu => if uu = "u1" then 1000000 else 0 } : Service).dailyTokens "u1" ∧
    (checkRateLimits { sampleService with
        dailyTokens := fun uu => if uu = "u1" then 1000000 else 0 } 0 "u1").1 =
      Except.error "daily token limit exceeded" ∧
    (checkRateLimits { sampleService with
        dailyTokens := fun uu => if uu = "u1" then 1000000 else 0 } 0 "u2").1 =
      Except.ok () ∧
    (checkRateLimits { sampleService with
        dailyTokens := fun uu => if uu = "u1" then 1000000 else 0 } (25 * nsPerHour) "u1").1 =
      Except.ok () := by
  have h := C4_usage_limiter
    { sampleService with dailyTokens := fun uu => if uu = "u1" then 1000000 else 0 }
    0 "u1" "u2" (by decide)
  exact ⟨by decide, by decide, h.2.1 (by decide), h.2.2.1 (by decide),
    (h.2.2.2 (25 * nsPerHour) (by decide) (by decide)).1⟩

/-! ### Claim theorems: tax analyzer (C8) -/

/-- Claim C8: for a portfolio holding exactly one position with an
unrealized gain of $20,000 and one with an unrealized loss of $15,000 (at
or above the $100 harvest threshold), the summary has non-zero
`TotalUnrealizedGains`, non-zero `TotalUnrealizedLosses`, exactly one
harvest opportunity and a non-empty disclaimer list; and for a nil
portfolio the analyzer still returns a summary value, with zero
opportunities and the same non-empty disclaimer set. -/
theorem C8_tax_analyzer (h1 h2 : Holding) (p : Portfolio) (month : Nat)
    (hg : h1.GainLoss = 20000) (hl : h2.GainLoss = -15000)
    (hp : p.Holdings = [h1, h2]) :
    (AnalyzeTaxOpportunities NewTaxOptimizer month (some p)).TotalUnrealizedGains ≠ 0 ∧
    (AnalyzeTaxOpportunities NewTaxOptimizer month (some p)).TotalUnrealizedLosses ≠ 0 ∧
    (AnalyzeTaxOpportunities NewTaxOptimizer month (some p)).Opportunities.length = 1 ∧
    (AnalyzeTaxOpportunities NewTaxOptimizer month (some p)).Disclaimers ≠ [] ∧
    ∀ month2, (AnalyzeTaxOpportunities NewTaxOptimizer month2 none).Opportunities = [] ∧
      (AnalyzeTaxOpportunities NewTaxOptimizer month2 none).Disclaimers ≠ [] := by
  have hpos : (0 : Rat) < h1.GainLoss := by rw [hg]; norm_num
  have hnotneg : ¬ h1.GainLoss < 0 := by rw [hg]; norm_num
  have hneg : h2.GainLoss < 0 := by rw [hl]; norm_num
  have hnotpos : ¬ (0 : Rat) < h2.GainLoss := by rw [hl]; norm_num
  have habs : |h2.GainLoss| = 15000 := by rw [hl]; norm_num
  have hthr : NewTaxOptimizer.minLossThreshold ≤ |h2.GainLoss| := by
    rw [habs]
    show (100 : Rat) ≤ 15000
    norm_num
  simp only [AnalyzeTaxOpportunities, hp, List.length_cons, List.length_nil, List.foldl,
    analyzeHolding, if_pos hpos, if_neg hnotpos, if_neg (by norm_num : ¬ (2 : Nat) = 0),
    if_pos hthr, hneg, if_pos hneg]
  refine ⟨?_, ?_, ?_, ?_, ?_⟩
  · show (0 : Rat) + h1.GainLoss ≠ 0
    rw [hg]; norm_num
  · show (0 : Rat) + |h2.GainLoss| ≠ 0
    rw [habs]; norm_num
  · rfl
  · simp [taxDisclaimers]
  · intro month2
    constructor
    · trivial
    · simp [AnalyzeTaxOpportunities, taxDisclaimers]

/-! ### Orchestrator lemmas (ask paths) -/

/-- A blocklist match forces the `Unsupported` intent. -/
theorem classifyIntent_of_blocked (q : String)
    (h : isBlockedQuery (strToLower q) = true) :
    ClassifyIntent q = IntentUnsupported := by
  simp [ClassifyIntent, h]

/-- The classifier returns `Unsupported` exactly on blocklist matches. -/
theorem classifyIntent_unsupported_iff (q : String) :
    ClassifyIntent q = IntentUnsupported ↔ isBlockedQuery (strToLower q) = true := by
  constructor
  · intro h
    by_contra hb
    rw [Bool.not_eq_true] at hb
    revert h
    simp only [ClassifyIntent, hb, Bool.false_eq_true, if_false]
    split_ifs <;> decide
  · exact classifyIntent_of_blocked q

/-- Within the 24h window and under budget, the rate-limit check passes and
leaves the state untouched. -/
theorem checkRateLimits_ok (s : Service) (now : Nat) (u : String)
    (hw : now - s.lastReset ≤ nsPerDay)
    (hbudget : s.dailyTokens u < s.cfg.DailyTokenBudget) :
    checkRateLimits s now u = (Except.ok (), s) := by
  simp [checkRateLimits, Nat.not_lt.mpr hw, Nat.not_le.mpr hbudget]

/-- On a blocked query (within the window and under budget), `Ask` returns
the templated refusal and leaves the service state exactly as it was. -/
theorem ask_blocked (s : Service) (now : Nat) (nq nr : String) (remote : RemoteOracle)
    (q : Query) (pf : Option Portfolio)
    (hb : isBlockedQuery (strToLower q.Text) = true)
    (hw : now - s.lastReset ≤ nsPerDay)
    (hbudget : s.dailyTokens q.UserID < s.cfg.DailyTokenBudget) :
    ask s now nq nr remote q pf =
      (Except.ok (blockedResponse s.cfg nr
        { q with ID := if q.ID = "" then nq else q.ID, Timestamp := now }
        IntentUnsupported now), s) := by
  have hci : ClassifyIntent q.Text = IntentUnsupported := classifyIntent_of_blocked q.Text hb
  simp only [ask, checkRateLimits_ok s now q.UserID hw hbudget, hci]
  simp

/-! ### Claim theorems: blocked-query frame effect (C10) -/

/-- Claim C10: for a query whose text matches the blocklist (user under
budget, no window rollover — the 24h reset is an unrelated mechanism), `Ask`
returns the fixed templated refusal with zero `TokensUsed` and
`Cached = false`; the final state is exactly the initial one, so the
per-user daily token totals, the cache contents and the audit log are all
unchanged (no usage recorded, nothing stored); and the whole call is
independent of the remote oracle, i.e. no remote model call is consulted. -/
theorem C10_blocked_frame (s : Service) (now : Nat) (nq nr : String)
    (remote : RemoteOracle) (q : Query) (pf : Option Portfolio)
    (hb : isBlockedQuery (strToLower q.Text) = true)
    (hw : now - s.lastReset ≤ nsPerDay)
    (hbudget : s.dailyTokens q.UserID < s.cfg.DailyTokenBudget) :
    (ask s now nq nr remote q pf).1 =
      Except.ok (blockedResponse s.cfg nr
        { q with ID := if q.ID = "" then nq else q.ID, Timestamp := now }
        IntentUnsupported now) ∧
    (blockedResponse s.cfg nr
        { q with ID := if q.ID = "" then nq else q.ID, Timestamp := now }
        IntentUnsupported now).Text = blockedText ∧
    (blockedResponse s.cfg nr
        { q with ID := if q.ID = "" then nq else q.ID, Timestamp := now }
        IntentUnsupported now).TokensUsed = { Input := 0, Output := 0, Total := 0 } ∧
    (blockedResponse s.cfg nr
        { q with ID := if q.ID = "" then nq else q.ID, Timestamp := now }
        IntentUnsupported now).Cached = false ∧
    (ask s now nq nr remote q pf).2 = s ∧
    ∀ remote2 : RemoteOracle,
      ask s now nq nr remote2 q pf = ask s now nq nr remote q pf := by
  have h := ask_blocked s now nq nr remote q pf hb hw hbudget
  refine ⟨by rw [h], rfl, rfl, rfl, by rw [h], fun remote2 => ?_⟩
  rw [h, ask_blocked s now nq nr remote2 q pf hb hw hbudget]

set_option maxRecDepth 10000 in
unseal Rat.mul Rat.add Rat.sub Rat.inv Rat.ofScientific in
/-- Witness for C10 at the blocked query fixture against a fresh default
service: the refusal is returned, the state is unchanged and a failing
remote oracle is never consulted. -/
theorem C10_witness :
    isBlockedQuery (strToLower sampleBlockedQuery.Text) = true ∧
    (ask sampleService 0 "nq" "nr" sampleRemoteErr sampleBlockedQuery none).1 =
      Except.ok (blockedResponse sampleService.cfg "nr"
        { sampleBlockedQuery with ID := "q1", Timestamp := 0 } IntentUnsupported 0) ∧
    (ask sampleService 0 "nq" "nr" sampleRemoteErr sampleBlockedQuery none).2 =
      sampleService := by
  have h := C10_blocked_frame sampleService 0 "nq" "nr" sampleRemoteErr
    sampleBlockedQuery none (by decide) (by decide) (by decide)
  exact ⟨by decide, h.1, h.2.2.2.2.1⟩

/-! ### Claim theorems: audit exactly-once (C1) -/

/-- Logging appends exactly one entry when enabled and none when disabled,
and never rewrites the existing entries. -/
theorem auditLog_entries (al : AuditLogger) (now : Nat) (q : Query) (r : Response) :
    (al.Log now q r).entries.length =
      al.entries.length + (if al.enabled then 1 else 0) ∧
    (al.Log now q r).entries.take al.entries.length = al.entries := by
  unfold AuditLogger.Log
  by_cases h : al.enabled
  · simp [h, List.take_left]
  · simp [h]

/-- On a cache hit (not blocked, within limits), `Ask` serves the clone with
the `Cached` flag set and only the hit counter in the cache changes — in
particular the audit log is untouched. -/
theorem ask_cachehit (s : Service) (now : Nat) (nq nr : String) (remote : RemoteOracle)
    (q : Query) (pf : Option Portfolio)
    (hb : isBlockedQuery (strToLower q.Text) = false)
    (hw : now - s.lastReset ≤ nsPerDay)
    (hbudget : s.dailyTokens q.UserID < s.cfg.DailyTokenBudget)
    (hce : s.cfg.CacheEnabled = true)
    (cached : Response) (c2 : QueryCache)
    (hcg : cacheGet s.cache now q.Text q.PortfolioID = (some cached, c2)) :
    ask s now nq nr remote q pf =
      (Except.ok { cached with
          Cached := true
          QueryID := (if q.ID = "" then nq else q.ID)
          ProcessingMs := 0 },
        { s with cache := c2 }) := by
  have hci : ¬ ClassifyIntent q.Text = IntentUnsupported := by
    rw [classifyIntent_unsupported_iff]
    simp [hb]
  simp only [ask, checkRateLimits_ok s now q.UserID hw hbudget, hce, if_true, hcg]
  simp [hci]

/-- On a cache miss with a successful remote call (not blocked, within
limits), `Ask` succeeds and appends exactly one audit entry when the logger
is enabled (and none when disabled), preserving all earlier entries. -/
theorem ask_fullpath (s : Service) (now : Nat) (nq nr : String) (remote : RemoteOracle)
    (q : Query) (pf : Option Portfolio)
    (hb : isBlockedQuery (strToLower q.Text) = false)
    (hw : now - s.lastReset ≤ nsPerDay)
    (hbudget : s.dailyTokens q.UserID < s.cfg.DailyTokenBudget)
    (hce : s.cfg.CacheEnabled = true)
    (c2 : QueryCache)
    (hcg : cacheGet s.cache now q.Text q.PortfolioID = (none, c2))
    (text : String) (inTok outTok : Nat)
    (hrem : remote (buildSystemPrompt pf) (buildUserPrompt q) =
      Except.ok (text, inTok, outTok)) :
    (ask s now nq nr remote q pf).1.isOk = true ∧
    (ask s now nq nr remote q pf).2.auditor.entries.length =
      s.auditor.entries.length + (if s.auditor.enabled then 1 else 0) ∧
    (ask s now nq nr remote q pf).2.auditor.entries.take s.auditor.entries.length =
      s.auditor.entries := by
  have hci : ¬ ClassifyIntent q.Text = IntentUnsupported := by
    rw [classifyIntent_unsupported_iff]
    simp [hb]
  have hrem' : remote (buildSystemPrompt pf)
      (buildUserPrompt { q with ID := if q.ID = "" then nq else q.ID, Timestamp := now }) =
      Except.ok (text, inTok, outTok) := hrem
  simp only [ask, checkRateLimits_ok s now q.UserID hw hbudget, hce, if_true, hcg, hrem']
  simp only [if_neg hci]
  constructor
  · rfl
  · constructor
    · split <;> exact (auditLog_entries _ now _ _).1
    · split <;> exact (auditLog_entries _ now _ _).2

set_option maxRecDepth 10000 in
unseal Rat.mul Rat.add Rat.sub Rat.inv Rat.ofScientific in
/-- Counterexample to claim C1 as stated: on a fresh default-configured
service (audit logging enabled, empty audit log), the blocked query
"Should I buy AAPL?" reaches a terminal `Response` (the call returns `ok`),
yet the audit log still has 0 entries afterwards — not exactly one.  The
blocked path of `Ask` returns before the `auditor.Log` call. -/
theorem C1_counterexample :
    sampleService.auditor.enabled = true ∧
    sampleService.auditor.entries.length = 0 ∧
    (ask sampleService 0 "nq" "nr" sampleRemoteErr sampleBlockedQuery none).1.isOk = true ∧
    (ask sampleService 0 "nq" "nr" sampleRemoteErr sampleBlockedQuery none).2.auditor.entries.length = 0 := by
  refine ⟨rfl, rfl, ?_, ?_⟩ <;> decide

/-- Claim C1 (amended): an `AuditEntry` is appended exactly once for every
`Ask` call that reaches a terminal `Response` through the full model-call
path (when the audit logger is enabled; none when disabled), and the
earlier entries are preserved; `Ask` calls that terminate with a blocked
refusal or a cache hit do NOT append an audit entry — their final audit
state is exactly the initial one.  (All parts within the 24h window and
under budget, so the call reaches a terminal `Response` rather than a
quota error.) -/
theorem C1_audit_exactly_once_amended (s : Service) (now : Nat) (nq nr : String)
    (remote : RemoteOracle) (q : Query) (pf : Option Portfolio)
    (hw : now - s.lastReset ≤ nsPerDay)
    (hbudget : s.dailyTokens q.UserID < s.cfg.DailyTokenBudget) :
    (isBlockedQuery (strToLower q.Text) = true →
      (ask s now nq nr remote q pf).1.isOk = true ∧
      (ask s now nq nr remote q pf).2.auditor = s.auditor) ∧
    (∀ cached c2, isBlockedQuery (strToLower q.Text) = false →
      s.cfg.CacheEnabled = true →
      cacheGet s.cache now q.Text q.PortfolioID = (some cached, c2) →
      (ask s now nq nr remote q pf).1.isOk = true ∧
      (ask s now nq nr remote q pf).2.auditor = s.auditor) ∧
    (∀ c2 text inTok outTok, isBlockedQuery (strToLower q.Text) = false →
      s.cfg.CacheEnabled = true →
      cacheGet s.cache now q.Text q.PortfolioID = (none, c2) →
      remote (buildSystemPrompt pf) (buildUserPrompt q) = Except.ok (text, inTok, outTok) →
      (ask s now nq nr remote q pf).1.isOk = true ∧
      (ask s now nq nr remote q pf).2.auditor.entries.length =
        s.auditor.entries.length + (if s.auditor.enabled then 1 else 0) ∧
      (ask s now nq nr remote q pf).2.auditor.entries.take s.auditor.entries.length =
        s.auditor.entries) := by
  refine ⟨?_, ?_, ?_⟩
  · intro hb
    rw [ask_blocked s now nq nr remote q pf hb hw hbudget]
    exact ⟨rfl, rfl⟩
  · intro cached c2 hb hce hcg
    rw [ask_cachehit s now nq nr remote q pf hb hw hbudget hce cached c2 hcg]
    exact ⟨rfl, rfl⟩
  · intro c2 text inTok outTok hb hce hcg hrem
    exact ask_fullpath s now nq nr remote q pf hb hw hbudget hce c2 hcg text inTok outTok hrem

set_option maxRecDepth 10000 in
unseal Rat.mul Rat.add Rat.sub Rat.inv Rat.ofScientific in
/-- Witness for C1 (amended), exercising the full model-call path: a risk
query on a fresh default service (empty audit log, logger enabled) with a
successful remote oracle appends exactly one audit entry, and the blocked
fixture appends none. -/
theorem C1_witness :
    (ask sampleService 0 "nq" "nr" sampleRemoteOk sampleRiskQuery none).2.auditor.entries.length = 1 ∧
    (ask sampleService 0 "nq" "nr" sampleRemoteErr sampleBlockedQuery none).2.auditor = sampleService.auditor := by
  constructor
  · have h := (C1_audit_exactly_once_amended sampleService 0 "nq" "nr" sampleRemoteOk
      sampleRiskQuery none (by decide) (by decide)).2.2 sampleService.cache
      "The answer." 100 50 (by decide) rfl rfl rfl
    have h2 := h.2.1
    simpa using h2
  · exact ((C1_audit_exactly_once_amended sampleService 0 "nq" "nr" sampleRemoteErr
      sampleBlockedQuery none (by decide) (by decide)).1 (by decide)).2

set_option maxRecDepth 10000 in
unseal Rat.mul Rat.add Rat.sub Rat.inv Rat.ofScientific in
/-- Witness for C8 at the concrete two-holding fixture portfolio. -/
theorem C8_witness :
    sampleGainHolding.GainLoss = 20000 ∧
    sampleLossHolding.GainLoss = -15000 ∧
    (AnalyzeTaxOpportunities NewTaxOptimizer 11 (some samplePortfolio)).Opportunities.length = 1 ∧
    (AnalyzeTaxOpportunities NewTaxOptimizer 11 (some samplePortfolio)).Disclaimers ≠ [] :=
  ⟨by decide, by decide,
    (C8_tax_analyzer sampleGainHolding sampleLossHolding samplePortfolio 11
      (by decide) (by decide) rfl).2.2.1,
    (C8_tax_analyzer sampleGainHolding sampleLossHolding samplePortfolio 11
      (by decide) (by decide) rfl).2.2.2.1⟩

/-! ### Claim theorems: cache capacity (C5) -/

/-- Bumping a hit counter does not change the entry count. -/
theorem bumpHit_length (l : List (CacheKey × CacheEntry)) (k : CacheKey) :
    (bumpHit l k).length = l.length := by
  simp [bumpHit]

/-- Deleting a key never grows the table. -/
theorem eraseKV_length_le (l : List (CacheKey × CacheEntry)) (k : CacheKey) :
    (eraseKV l k).length ≤ l.length :=
  List.length_filter_le _ _

/-- Deleting a present key strictly shrinks the table. -/
theorem eraseKV_length_lt (l : List (CacheKey × CacheEntry)) (k : CacheKey)
    (h : ∃ kv ∈ l, kv.1 = k) : (eraseKV l k).length < l.length := by
  unfold eraseKV
  rw [List.length_filter_lt_length_iff_exists]
  obtain ⟨kv, hkv, hk⟩ := h
  exact ⟨kv, hkv, by simp [hk]⟩

/-- A fold of deletions never grows the table. -/
theorem foldl_eraseKV_length_le (ks : List CacheKey) (l : List (CacheKey × CacheEntry)) :
    (ks.foldl eraseKV l).length ≤ l.length := by
  induction ks generalizing l with
  | nil => exact Nat.le_refl _
  | cons k ks ih => exact Nat.le_trans (ih (eraseKV l k)) (eraseKV_length_le l k)

/-- Eviction strictly shrinks a non-empty cache table. -/
theorem evictOldest_length_lt (m : Nat) (l : List (CacheKey × CacheEntry))
    (hl : 1 ≤ l.length) : (evictOldest m l).length < l.length := by
  have hperm := List.perm_insertionSort byAge l
  cases hs : List.insertionSort byAge l with
  | nil =>
    rw [hs] at hperm
    have := hperm.length_eq
    simp at this
    omega
  | cons s0 rest =>
    obtain ⟨ec', hec'⟩ : ∃ ec', (if m / 10 < 1 then 1 else m / 10) = ec' + 1 := by
      refine ⟨(if m / 10 < 1 then 1 else m / 10) - 1, ?_⟩
      split <;> omega
    have hmem : s0 ∈ l := by
      rw [hs] at hperm
      exact hperm.mem_iff.mp (List.mem_cons_self _ _)
    simp only [evictOldest, hs, hec', List.take_succ_cons, List.map_cons, List.foldl_cons]
    calc (List.foldl eraseKV (eraseKV l s0.1) ((rest.take ec').map Prod.fst)).length
        ≤ (eraseKV l s0.1).length := foldl_eraseKV_length_le _ _
      _ < l.length := eraseKV_length_lt l s0.1 ⟨s0, hmem, rfl⟩

/-- Storing never exceeds the capacity: at capacity `Set` first evicts
(strictly shrinking the table), then inserts a single entry. -/
theorem cacheSet_length (c : QueryCache) (now : Nat) (q p : String) (r : Response)
    (hmax : 1 ≤ c.maxEntries) (hlen : c.cache.length ≤ c.maxEntries) :
    (cacheSet c now q p r).cache.length ≤ c.maxEntries := by
  have hins : ∀ (l : List (CacheKey × CacheEntry)) (k : CacheKey) (v : CacheEntry),
      (insertKV l k v).length ≤ l.length + 1 := by
    intro l k v
    simp only [insertKV, List.length_cons]
    exact Nat.succ_le_succ (List.length_filter_le _ _)
  obtain ⟨hcache, -, -, -⟩ := cacheSet_cache c now q p r
  rw [hcache]
  split
  · rename_i hfull
    have h1 : 1 ≤ c.cache.length := Nat.le_trans hmax hfull
    have h2 := evictOldest_length_lt c.maxEntries c.cache h1
    have h3 := hins (evictOldest c.maxEntries c.cache) (hashQuery q p)
      (cacheNewEntry now q p r)
    omega
  · rename_i hnotfull
    have h3 := hins c.cache (hashQuery q p) (cacheNewEntry now q p r)
    omega

/-- A lookup changes neither the entry count nor the capacity. -/
theorem cacheGet_snd (c : QueryCache) (now : Nat) (q p : String) :
    (cacheGet c now q p).2.cache.length = c.cache.length ∧
    (cacheGet c now q p).2.maxEntries = c.maxEntries := by
  simp only [cacheGet]
  cases h : lookupAssoc c.cache (hashQuery q p) with
  | some e =>
    by_cases he : now - e.CreatedAt < c.ttl
    · simp [he, bumpHit_length]
    · simp only [if_neg he]
      cases hf : findSimilar now c.ttl c.threshold p (normalizeQuery q) (extractKeywords q)
        c.cache with
      | some kv => simp [bumpHit_length]
      | none => simp
  | none =>
    cases hf : findSimilar now c.ttl c.threshold p (normalizeQuery q) (extractKeywords q)
      c.cache with
    | some kv => simp [bumpHit_length]
    | none => simp

/-- Every operation keeps the table within capacity and the capacity
unchanged. -/
theorem applyOp_bound (c : QueryCache) (op : CacheOp)
    (hmax : 1 ≤ c.maxEntries) (hlen : c.cache.length ≤ c.maxEntries) :
    (applyOp c op).cache.length ≤ (applyOp c op).maxEntries ∧
    (applyOp c op).maxEntries = c.maxEntries := by
  cases op with
  | setOp now qy p r =>
    have h1 := cacheSet_length c now qy p r hmax hlen
    have h2 := (cacheSet_cache c now qy p r).2.2.2
    exact ⟨by simp only [applyOp, h2]; exact h1, by simp only [applyOp]; exact h2⟩
  | getOp now qy p =>
    have h := cacheGet_snd c now qy p
    refine ⟨?_, by simp only [applyOp]; exact h.2⟩
    simp only [applyOp, h.1, h.2]
    exact hlen
  | invalidateOp p =>
    refine ⟨?_, rfl⟩
    simp only [applyOp, cacheInvalidate]
    exact Nat.le_trans (List.length_filter_le _ _) hlen
  | cleanupOp now =>
    refine ⟨?_, rfl⟩
    simp only [applyOp, cacheCleanup]
    exact Nat.le_trans (List.length_filter_le _ _) hlen

/-- Any operation sequence from a within-capacity state stays within the
(unchanged) capacity. -/
theorem runOps_bound (ops : List CacheOp) : ∀ c : QueryCache,
    1 ≤ c.maxEntries → c.cache.length ≤ c.maxEntries →
    (runOps c ops).cache.length ≤ (runOps c ops).maxEntries ∧
    (runOps c ops).maxEntries = c.maxEntries := by
  induction ops with
  | nil => exact fun c _ h2 => ⟨h2, rfl⟩
  | cons op ops ih =>
    intro c h1 h2
    have hstep := applyOp_bound c op h1 h2
    have hrec := ih (applyOp c op) (hstep.2 ▸ h1) (hstep.2 ▸ hstep.1)
    simp only [runOps, List.foldl_cons] at hrec ⊢
    exact ⟨hrec.1, hrec.2.trans hstep.2⟩

/-- A fold of key deletions is the filter dropping exactly those keys. -/
theorem foldl_eraseKV_eq_filter (ks : List CacheKey) (l : List (CacheKey × CacheEntry)) :
    ks.foldl eraseKV l = l.filter fun kv => ¬ ks.contains kv.1 := by
  induction ks generalizing l with
  | nil => simp
  | cons k ks ih =>
    simp only [List.foldl_cons, ih, eraseKV, List.filter_filter]
    apply List.filter_congr
    intro kv _
    by_cases h1 : kv.1 = k <;> by_cases h2 : kv.1 ∈ ks <;> simp [h1, h2]

/-- Filtering a duplicate-free key list down to a duplicate-free subset
keeps exactly the subset's elements. -/
theorem filter_mem_length (K T : List CacheKey) (hK : K.Nodup) (hT : T.Nodup)
    (hsub : ∀ x ∈ T, x ∈ K) :
    (K.filter fun x => T.contains x).length = T.length := by
  have hperm : List.Perm (K.filter fun x => T.contains x) T := by
    apply (List.perm_ext_iff_of_nodup (hK.filter _) hT).mpr
    intro a
    simp only [List.mem_filter, List.contains_iff_exists_mem_beq]
    constructor
    · rintro ⟨-, b, hb, hab⟩
      rwa [beq_iff_eq.mp hab]
    · intro h
      exact ⟨hsub a h, a, h, beq_self_eq_true a⟩
  exact hperm.length_eq

/-- Eviction on a well-formed table removes exactly the oldest
`maxEntries/10` (at least 1, at most all) entries by creation timestamp:
the count conjunct gives the exact size, and the order conjunct says every
evicted entry is at least as old as every surviving one. -/
theorem evictOldest_spec (m : Nat) (l : List (CacheKey × CacheEntry))
    (hwf : (l.map Prod.fst).Nodup) :
    (evictOldest m l).length =
      l.length - min (if m / 10 < 1 then 1 else m / 10) l.length ∧
    ∀ kv ∈ l, kv ∉ evictOldest m l →
      ∀ kv2 ∈ evictOldest m l, kv.2.CreatedAt ≤ kv2.2.CreatedAt := by
  have hperm : List.Perm (List.insertionSort byAge l) l := List.perm_insertionSort byAge l
  have hsorted : List.Sorted byAge (List.insertionSort byAge l) :=
    List.sorted_insertionSort byAge l
  set ec := if m / 10 < 1 then 1 else m / 10 with hec
  set sorted := List.insertionSort byAge l with hsortdef
  set ks := (sorted.take ec).map Prod.fst with hks
  have hfold : evictOldest m l = l.filter fun kv => ¬ ks.contains kv.1 :=
    foldl_eraseKV_eq_filter ks l
  have hkeysperm : List.Perm (sorted.map Prod.fst) (l.map Prod.fst) := hperm.map _
  have hkeysnodup : (sorted.map Prod.fst).Nodup := hkeysperm.nodup_iff.mpr hwf
  have hkseq : ks = (sorted.map Prod.fst).take ec := by
    rw [hks, List.map_take]
  have hksnodup : ks.Nodup := by
    rw [hkseq]
    exact List.Nodup.sublist (List.take_sublist ec (sorted.map Prod.fst)) hkeysnodup
  have hkssub : ∀ x ∈ ks, x ∈ l.map Prod.fst := by
    intro x hx
    rw [hkseq] at hx
    exact hkeysperm.mem_iff.mp (List.take_subset _ _ hx)
  have hcount : (l.filter fun kv => ks.contains kv.1).length = ks.length := by
    have hmapfilter : List.filter (fun x => ks.contains x) (l.map Prod.fst) =
        (l.filter fun kv => ks.contains kv.1).map Prod.fst := by
      rw [List.filter_map]
      rfl
    have hlen := filter_mem_length (l.map Prod.fst) ks hwf hksnodup hkssub
    rw [hmapfilter, List.length_map] at hlen
    exact hlen
  have hkslen : ks.length = min ec l.length := by
    rw [hks, List.length_map, List.length_take, hperm.length_eq]
  constructor
  · rw [hfold]
    have hsum := List.length_eq_countP_add_countP (p := fun kv => ks.contains kv.1) l
    rw [List.countP_eq_length_filter, List.countP_eq_length_filter] at hsum
    rw [hcount, hkslen] at hsum
    omega
  · intro kv hkvl hkvout kv2 hkv2in
    rw [hfold] at hkvout hkv2in
    have hkvks : kv.1 ∈ ks := by
      by_contra hcon
      exact hkvout (List.mem_filter.mpr ⟨hkvl, by simpa using hcon⟩)
    have hkv2l : kv2 ∈ l := (List.mem_filter.mp hkv2in).1
    have hkv2ks : kv2.1 ∉ ks := by
      have := (List.mem_filter.mp hkv2in).2
      simpa using this
    have hkvtake : kv ∈ sorted.take ec := by
      obtain ⟨kv', hkv'take, hkv'eq⟩ := List.mem_map.mp hkvks
      have hkv'l : kv' ∈ l := hperm.mem_iff.mp (List.take_subset _ _ hkv'take)
      have : kv' = kv := List.inj_on_of_nodup_map hwf hkv'l hkvl hkv'eq
      rwa [this] at hkv'take
    have hkv2drop : kv2 ∈ sorted.drop ec := by
      have hkv2sorted : kv2 ∈ sorted := hperm.mem_iff.mpr hkv2l
      have hkv2app : kv2 ∈ sorted.take ec ++ sorted.drop ec := by
        rw [List.take_append_drop ec sorted]
        exact hkv2sorted
      rcases List.mem_append.mp hkv2app with h | h
      · exact absurd (List.mem_map_of_mem Prod.fst h) hkv2ks
      · exact h
    have hpw := hsorted
    rw [← List.take_append_drop ec sorted] at hpw
    exact (List.pairwise_append.mp hpw).2.2 kv hkvtake kv2 hkv2drop

/-- Claim C5: (first conjunct) starting from a fresh cache no sequence of
`Set`/`Get`/`Invalidate`/`cleanup` operations ever pushes the entry count
beyond `maxEntries` = 10,000; (second group, for any well-formed state
found at capacity) `Set` synchronously evicts before inserting: the stored
table is the evicted table plus the new entry, eviction removes exactly
`min(max(maxEntries/10, 1), size)` entries — the oldest 10% (minimum 1) —
and every evicted entry is at least as old (by creation timestamp) as every
surviving entry. -/
theorem C5_cache_capacity :
    (∀ (ttl : Nat) (th : Rat) (ops : List CacheOp),
      (runOps (NewQueryCache ttl th) ops).cache.length ≤ 10000) ∧
    ∀ (c : QueryCache) (now : Nat) (q p : String) (r : Response),
      WFCache c.cache → c.maxEntries ≤ c.cache.length →
      (cacheSet c now q p r).cache =
        insertKV (evictOldest c.maxEntries c.cache) (hashQuery q p)
          (cacheNewEntry now q p r) ∧
      (evictOldest c.maxEntries c.cache).length =
        c.cache.length -
          min (if c.maxEntries / 10 < 1 then 1 else c.maxEntries / 10) c.cache.length ∧
      ∀ kv ∈ c.cache, kv ∉ evictOldest c.maxEntries c.cache →
        ∀ kv2 ∈ evictOldest c.maxEntries c.cache, kv.2.CreatedAt ≤ kv2.2.CreatedAt := by
  constructor
  · intro ttl th ops
    have hmax : (NewQueryCache ttl th).maxEntries = 10000 := rfl
    have h := runOps_bound ops (NewQueryCache ttl th)
      (by rw [hmax]; omega)
      (by rw [hmax]; show (0 : Nat) ≤ 10000; omega)
    rw [← hmax, ← h.2]
    exact h.1
  · intro c now q p r hwf hfull
    have hspec := evictOldest_spec c.maxEntries c.cache hwf.1
    refine ⟨?_, hspec.1, hspec.2⟩
    obtain ⟨hcache, -, -, -⟩ := cacheSet_cache c now q p r
    rw [hcache, if_pos hfull]

set_option maxRecDepth 10000 in
unseal Rat.mul Rat.add Rat.sub Rat.inv Rat.ofScientific in
/-- Witness for C5: a two-op run from a fresh cache stays within capacity,
and on a concrete well-formed cache at capacity 2 the eviction removes
exactly one (the oldest) entry. -/
theorem C5_witness :
    (runOps (NewQueryCache 0 0) [CacheOp.setOp 1 "q one" "p1" sampleResponse,
      CacheOp.setOp 2 "q two" "p1" sampleResponse]).cache.length ≤ 10000 ∧
    WFCache sampleFullCache.cache ∧
    sampleFullCache.maxEntries ≤ sampleFullCache.cache.length ∧
    (evictOldest sampleFullCache.maxEntries sampleFullCache.cache).length =
      sampleFullCache.cache.length -
        min (if sampleFullCache.maxEntries / 10 < 1 then 1
          else sampleFullCache.maxEntries / 10) sampleFullCache.cache.length :=
  ⟨C5_cache_capacity.1 0 0 _, by decide, by decide,
    (C5_cache_capacity.2 sampleFullCache 9 "gamma query" "p3" sampleResponse
      (by decide) (by decide)).2.1⟩
